import Mathlib

/-!
Verification development for the intro-detection utilities of the autoclip_mvp
repository (src/utils/intro_detector.py, src/utils/advanced_intro_detector.py,
src/utils/smart_intro_detector.py).

The Python code is shallowly embedded: parsed floating-point measurements are
modelled as exact rationals (ℚ), Python `int` as ℤ, Python `int(x)` as
truncation toward zero, Python `round(x)` as round-half-to-even, and Python
`x // y` / `x % y` on non-negative reals as floor division / remainder.
External tool invocations (ffmpeg, OpenCV, scenedetect, file reads) are the
environment: each detector consumes a record holding the values the Python
code would have parsed out of the tool output, together with one boolean per
tool invocation saying whether the invocation raised (the corresponding
`try`/`except` then yields "no candidate").  Numeric confidences are written
as fractions: 0.5 = 1/2, 0.6 = 3/5, 0.65 = 13/20, 0.7 = 7/10, 0.75 = 3/4,
0.8 = 4/5, 0.9 = 9/10, 0.3 = 3/10.
-/

/-- Python `int(x)` on a real value: truncation toward zero. -/
def pyInt (q : ℚ) : ℤ := if q < 0 then ⌈q⌉ else ⌊q⌋

/-- Python `round(x)` (single argument): nearest integer, ties to even. -/
def pyRound (q : ℚ) : ℤ :=
  if q - ⌊q⌋ < 1/2 then ⌊q⌋
  else if (1:ℚ)/2 < q - ⌊q⌋ then ⌊q⌋ + 1
  else if ⌊q⌋ % 2 = 0 then ⌊q⌋ else ⌊q⌋ + 1

/-- Python `a % b` for rationals (sign of the result follows `b`; we only use
`b > 0`): `a - b * ⌊a / b⌋`. -/
def pymod (a b : ℚ) : ℚ := a - b * ⌊a / b⌋

/-- Python substring test `pat in s`, on the character lists of the strings. -/
def strContains (s pat : String) : Bool :=
  (List.range (s.data.length + 1)).any fun i => pat.data.isPrefixOf (s.data.drop i)

/-- Python `any(m in text for m in ms)`. -/
def containsAny (text : String) (ms : List String) : Bool :=
  ms.any fun m => strContains text m

namespace IntroDetector

/-- One SRT timecode `HH:MM:SS,mmm` as the four digit groups matched by the
regex `(\d{2}):(\d{2}):(\d{2}),(\d{3})` (values, not digit strings; the
two/three-digit shape of the groups is the predicate `Tc.Canonical` below,
together with the usual minute/second bounds of a well-formed SRT file). -/
structure Tc where
  hh : ℕ
  mm : ℕ
  ss : ℕ
  ms : ℕ
deriving DecidableEq

/-- Digit-group bounds of a well-formed, canonical SRT timecode: two-digit
hours, minutes and seconds below 60, milliseconds below 1000. -/
def Tc.Canonical (t : Tc) : Prop :=
  t.hh < 100 ∧ t.mm < 60 ∧ t.ss < 60 ∧ t.ms < 1000

/-- `IntroDetector._time_to_seconds`: `hours*3600 + minutes*60 + seconds`
where the seconds part carries the milliseconds as a fraction. -/
def tcSeconds (t : Tc) : ℚ :=
  (t.hh : ℚ) * 3600 + (t.mm : ℚ) * 60 + ((t.ss : ℚ) + (t.ms : ℚ) / 1000)

/-- The formatting half of `adjust_time` (lines 184-191 of intro_detector.py):
`hours = int(s // 3600)`, `minutes = int((s % 3600) // 60)`, `secs = s % 60`,
`millisecs = int((secs % 1) * 1000)`, `secs = int(secs)`; the argument is the
already clamped non-negative number of seconds, so `int` here is `⌊·⌋`. -/
def formatSeconds (s : ℚ) : Tc :=
  { hh := (⌊s / 3600⌋).toNat
    mm := (⌊pymod s 3600 / 60⌋).toNat
    ss := (⌊pymod s 60⌋).toNat
    ms := (⌊pymod (pymod s 60) 1 * 1000⌋).toNat }

/-- `adjust_time` of `IntroDetector.adjust_srt_timeline`: clamp
`seconds - offset_seconds` at 0 and re-format as a timecode. -/
def adjust_time (offset : ℚ) (t : Tc) : Tc :=
  formatSeconds (max 0 (tcSeconds t - offset))

/-- One well-formed SRT block as split on blank lines: the index line
`idx`, the timecode line (holding exactly the two matched timecodes), and at
least one line of caption text (the block had `len(lines) >= 3`). -/
structure SrtBlock where
  idx : String
  startTc : Tc
  endTc : Tc
  text : List String
deriving DecidableEq

/-- One output block of `adjust_srt_timeline`: the fresh sequential number,
the two adjusted timecodes, and the unchanged caption text. -/
structure AdjustedBlock where
  number : ℕ
  startTc : Tc
  endTc : Tc
  text : List String
deriving DecidableEq

/-- The block loop of `adjust_srt_timeline` (lines 204-228): a block whose
original end time is at most the offset is skipped, every other block gets
both timecodes adjusted and is renumbered with the running counter
`block_number`.  (The `replace_times` branch returning `None` is unreachable:
the caller has already skipped blocks with `end_seconds <= offset_seconds`.) -/
def adjustBlocks (offset : ℚ) : List SrtBlock → ℕ → List AdjustedBlock
  | [], _ => []
  | b :: bs, n =>
    if tcSeconds b.endTc ≤ offset then
      adjustBlocks offset bs n
    else
      { number := n
        startTc := adjust_time offset b.startTc
        endTc := adjust_time offset b.endTc
        text := b.text } :: adjustBlocks offset bs (n + 1)

/-- `IntroDetector.adjust_srt_timeline` on the parsed block structure of a
well-formed SRT file: the running block number starts at 1. -/
def adjust_srt_timeline (offset : ℚ) (blocks : List SrtBlock) : List AdjustedBlock :=
  adjustBlocks offset blocks 1

/-- The survivor of an input block under the adjustment, numbering aside. -/
def adjustedOf (offset : ℚ) (b : SrtBlock) : Tc × Tc × List String :=
  (adjust_time offset b.startTc, adjust_time offset b.endTc, b.text)

/-- Timecodes-and-text content of an output block (what the claim compares,
numbering aside). -/
def AdjustedBlock.content (a : AdjustedBlock) : Tc × Tc × List String :=
  (a.startTc, a.endTc, a.text)

/-- Timecodes-and-text content of an input block. -/
def SrtBlock.content (b : SrtBlock) : Tc × Tc × List String :=
  (b.startTc, b.endTc, b.text)

end IntroDetector

/-- Python `int(t // 10) * 10`, the 10-second window key used both by
`AdvancedIntroDetector._detect_by_video_features` (line 279) and by
`SmartIntroDetector._analyze_scene_change_pattern` (line 163). -/
def sceneWindow (t : ℚ) : ℤ := ⌊t / 10⌋ * 10

namespace AdvancedIntroDetector

/-- Diagnostic payload of `IntroDetectionResult.details` in
advanced_intro_detector.py: one constructor per dict shape the file builds. -/
inductive Details where
  | silence (duration start stop : ℚ)
  | music
  | blackScreen (stop : ℚ)
  | densityDrop (sceneCount : ℕ) (transition : ℚ) (densityBefore densityAfter : ℕ)
  | sceneGap (sceneCount : ℕ) (transition gap : ℚ)
  | subtitle (lyricsScore creditsScore : ℚ) (firstDialogue : String)
  | average (results : List (String × ℤ))
  | defaultFallback
deriving DecidableEq

/-- The dataclass `IntroDetectionResult` of advanced_intro_detector.py. -/
structure IntroDetectionResult where
  intro_end_seconds : ℤ
  confidence : ℚ
  detection_method : String
  details : Details
deriving DecidableEq

/-- Constructor arguments of `AdvancedIntroDetector.__init__`. -/
structure Config where
  min_intro_duration : ℤ
  max_intro_duration : ℤ
  default_intro_duration : ℤ
  confidence_threshold : ℚ

/-- A parsed subtitle record of `_parse_srt`: start and end in seconds plus
the joined caption text (the derived `duration` field is never read). -/
structure Subtitle where
  start : ℚ
  stop : ℚ
  text : String

/-- Raw measurements and tool outcomes one `detect_intro` call consumes: for
each external invocation a flag saying whether it raised, and the values the
Python code would have parsed from its output. -/
structure Env where
  audioOk : Bool
  silencePeriods : List (ℚ × ℚ)
  videoOk : Bool
  sceneChanges : List ℚ
  blackEnds : List ℚ
  srtGiven : Bool
  subOk : Bool
  subtitles : List Subtitle

/-- The longest-silence accumulator record (dict with keys `duration`,
`start`, `end`) of `_detect_by_audio_features`. -/
structure Silence where
  duration : ℚ
  start : ℚ
  stop : ℚ
deriving DecidableEq

/-- One iteration of the longest-silence loop (lines 154-164): an in-range
period replaces the accumulator when it is the first one or strictly longer
(`longest_silence is None or duration > longest_silence['duration']`). -/
def silenceStep (cfg : Config) (acc : Option Silence) (p : ℚ × ℚ) : Option Silence :=
  if (cfg.min_intro_duration : ℚ) ≤ p.2 ∧ p.2 ≤ (cfg.max_intro_duration : ℚ) then
    match acc with
    | none => some ⟨p.2 - p.1, p.1, p.2⟩
    | some l => if l.duration < p.2 - p.1 then some ⟨p.2 - p.1, p.1, p.2⟩ else some l
  else acc

/-- Lines 152-164 of `_detect_by_audio_features`: among the parsed silence
periods whose end falls within `[min_intro_duration, max_intro_duration]`,
keep the first one of maximal duration (strict `>` comparison). -/
def selectLongestSilence (cfg : Config) (ps : List (ℚ × ℚ)) : Option Silence :=
  ps.foldl (silenceStep cfg) none

/-- `_detect_music_to_speech_transition`: its `try` block performs no external
call (`cmd` is built but never run), so it always returns the fixed
`music_analysis` estimate `min(60, max_intro_duration)` with confidence 0.6. -/
def detect_music_to_speech_transition (cfg : Config) : Option IntroDetectionResult :=
  some ⟨min 60 cfg.max_intro_duration, 3/5, "music_analysis", .music⟩

/-- `_detect_by_audio_features`: if the ffmpeg call raised, no candidate;
otherwise emit the `audio_silence` candidate when the selected longest
in-range silence lasts more than 3 seconds, else fall through to the
music-to-speech heuristic. -/
def detect_by_audio_features (cfg : Config) (env : Env) : Option IntroDetectionResult :=
  if env.audioOk then
    match selectLongestSilence cfg env.silencePeriods with
    | some ls =>
      if 3 < ls.duration then
        some ⟨pyInt ls.stop, 4/5, "audio_silence", .silence ls.duration ls.start ls.stop⟩
      else detect_music_to_speech_transition cfg
    | none => detect_music_to_speech_transition cfg
  else none

/-- Occurrences of window key `w` among the scene-change timestamps: the
count stored under `w` in the `change_density` dict. -/
def density (sc : List ℚ) (w : ℤ) : ℕ :=
  sc.countP fun t => decide (sceneWindow t = w)

/-- The ascending list of distinct window keys (`sorted(change_density.keys())`). -/
def sortedWindows (sc : List ℚ) : List ℤ :=
  ((sc.map sceneWindow).dedup).mergeSort fun a b => decide (a ≤ b)

/-- Consecutive pairs of the sorted window keys, as scanned by
`for i in range(len(sorted_windows) - 1)`. -/
def windowPairs (sc : List ℚ) : List (ℤ × ℤ) :=
  (sortedWindows sc).zip (sortedWindows sc).tail

/-- Lines 283-308 of `_detect_by_video_features`: scan consecutive window
pairs; when the earlier window is inside `[min, max]` and its count is at
least 3 while the next window's count is at most 1, return the first
scene-change timestamp after `current_window + 10` (continuing with the next
pair when there is none). -/
def densityScan (cfg : Config) (sc : List ℚ) : List (ℤ × ℤ) → Option IntroDetectionResult
  | [] => none
  | (cur, nxt) :: rest =>
    if (cfg.min_intro_duration ≤ cur ∧ cur ≤ cfg.max_intro_duration)
        ∧ 3 ≤ density sc cur ∧ density sc nxt ≤ 1 then
      match sc.find? (fun t => decide ((cur : ℚ) + 10 < t)) with
      | some t =>
        some ⟨pyInt t, 3/4, "scene_density_drop",
          .densityDrop sc.length t (density sc cur) (density sc nxt)⟩
      | none => densityScan cfg sc rest
    else densityScan cfg sc rest

/-- Lines 311-326 of `_detect_by_video_features` (the scene-gap fallback):
walk the timestamps in order from index 1; at the first index whose timestamp
is at least `min_intro_duration` and whose gap to the previous timestamp
exceeds 15 seconds, emit the `scene_gap` candidate. -/
def gapScan (cfg : Config) (n : ℕ) : ℚ → List ℚ → Option IntroDetectionResult
  | _, [] => none
  | prev, t :: rest =>
    if (cfg.min_intro_duration : ℚ) ≤ t ∧ 15 < t - prev then
      some ⟨pyInt t, 13/20, "scene_gap", .sceneGap n t (t - prev)⟩
    else gapScan cfg n t rest

/-- The scene-gap fallback applied to the whole timestamp list. -/
def sceneGapFallback (cfg : Config) (sc : List ℚ) : Option IntroDetectionResult :=
  match sc with
  | [] => none
  | t0 :: rest => gapScan cfg sc.length t0 rest

/-- `_detect_by_video_features`: black-screen end first (first parsed
`black_end` at or after `min_intro_duration`), then — only when more than 5
scene changes were parsed — the density-drop scan and the scene-gap
fallback. -/
def detect_by_video_features (cfg : Config) (env : Env) : Option IntroDetectionResult :=
  if env.videoOk then
    match env.blackEnds.find? (fun e => decide ((cfg.min_intro_duration : ℚ) ≤ e)) with
    | some e => some ⟨pyInt e, 4/5, "black_screen", .blackScreen e⟩
    | none =>
      if 5 < env.sceneChanges.length then
        match densityScan cfg env.sceneChanges (windowPairs env.sceneChanges) with
        | some r => some r
        | none => sceneGapFallback cfg env.sceneChanges
      else none
  else none

/-- Lyric markers checked against the lowercased caption text. -/
def musicMarkers : List String := ["♪", "♫", "[音乐]", "[music]", "(music)"]

/-- Credit keywords checked against the lowercased caption text. -/
def creditKeywords : List String :=
  ["出品", "制作", "导演", "主演", "编剧", "produced", "directed", "written"]

/-- Punctuation marks a normal dialogue line is expected to contain. -/
def punctuationMarks : List String := ["。", "，", "？", "！", ".", ",", "?", "!"]

/-- Lyric markers excluding a dialogue line. -/
def lyricMarkers : List String := ["♪", "♫", "[音乐]"]

/-- Lines 347-364 of `_detect_by_subtitle_features`: accumulate the lyrics
and credits scores over the inspected captions; the short-line bonus of 0.5
compares the current lowercased text and the previous caption's raw text
(absent at index 0, modelled by the `prev` argument starting at `none`). -/
def subtitleScores : Option String → List Subtitle → ℚ × ℚ
  | _, [] => (0, 0)
  | prev, s :: rest =>
    let text := s.text.toLower
    let lyr : ℚ :=
      (if containsAny text musicMarkers then 1 else 0) +
        (if decide (text.length < 20) &&
            (match prev with | some pt => decide (pt.length < 20) | none => false) then
          1/2
        else 0)
    let crd : ℚ := if containsAny text creditKeywords then 1 else 0
    let tailScores := subtitleScores (some s.text) rest
    (lyr + tailScores.1, crd + tailScores.2)

/-- Lines 366-386 of `_detect_by_subtitle_features`: score the first 20
captions, then return the start of the first caption that looks like ordinary
dialogue (raw text longer than 20, contains punctuation, no lyric marker,
starts at or after `min_intro_duration`). -/
def subtitleAnalysis (cfg : Config) (subs : List Subtitle) : Option IntroDetectionResult :=
  let scores := subtitleScores none (subs.take 20)
  match subs.find?
      (fun s =>
        decide (20 < s.text.length) && containsAny s.text punctuationMarks &&
          !containsAny s.text lyricMarkers &&
          decide ((cfg.min_intro_duration : ℚ) ≤ s.start)) with
  | some s =>
    some ⟨pyInt s.start, if 3 < scores.1 ∨ 2 < scores.2 then 4/5 else 3/5,
      "subtitle_analysis", .subtitle scores.1 scores.2 (s.text.take 50)⟩
  | none => none

/-- The parsed subtitle records sorted by start time (`_parse_srt` returns
`sorted(subtitles, key=lambda x: x['start'])`, a stable sort). -/
def sortedSubtitles (subs : List Subtitle) : List Subtitle :=
  subs.mergeSort fun a b => decide (a.start ≤ b.start)

/-- `_detect_by_subtitle_features` at the `detect_intro` call site: it only
runs when an existing subtitle path was supplied, and contributes nothing
when reading the file raised. -/
def detect_by_subtitle_features (cfg : Config) (env : Env) : Option IntroDetectionResult :=
  if env.srtGiven && env.subOk then subtitleAnalysis cfg (sortedSubtitles env.subtitles)
  else none

/-- The candidate list `detection_results` accumulated by `detect_intro`:
audio, then video, then subtitle, each contributing at most one candidate. -/
def candidates (cfg : Config) (env : Env) : List IntroDetectionResult :=
  (detect_by_audio_features cfg env).toList ++ (detect_by_video_features cfg env).toList ++
    (detect_by_subtitle_features cfg env).toList

/-- The fixed fallback result (lines 104-111): the configured default
duration with confidence 0.5 and method `default`. -/
def defaultResult (cfg : Config) : IntroDetectionResult :=
  ⟨cfg.default_intro_duration, 1/2, "default", .defaultFallback⟩

/-- Stable descending sort by confidence
(`detection_results.sort(key=lambda x: x.confidence, reverse=True)`). -/
def sortByConfDesc (rs : List IntroDetectionResult) : List IntroDetectionResult :=
  rs.mergeSort fun a b => decide (b.confidence ≤ a.confidence)

/-- Lines 76-111 of `detect_intro` (the fusion step): sort by confidence
descending; return the top candidate when it reaches the threshold; else,
with at least two candidates, return the plain (unweighted) average of the
end times rounded toward zero when it lies within `[min, max]`; else the
fixed default.  The list is sorted in place in Python, so the average and the
details are computed over the sorted list. -/
def combine (cfg : Config) (detection_results : List IntroDetectionResult) :
    IntroDetectionResult :=
  let sorted := sortByConfDesc detection_results
  match sorted with
  | best :: rest =>
    if cfg.confidence_threshold ≤ best.confidence then best
    else if 2 ≤ (best :: rest).length then
      let avg : ℚ := (((best :: rest).map IntroDetectionResult.intro_end_seconds).sum : ℤ) /
        ((best :: rest).length : ℚ)
      if (cfg.min_intro_duration : ℚ) ≤ avg ∧ avg ≤ (cfg.max_intro_duration : ℚ) then
        ⟨pyInt avg, 3/5, "average",
          .average ((best :: rest).map fun r => (r.detection_method, r.intro_end_seconds))⟩
      else defaultResult cfg
    else defaultResult cfg
  | [] => defaultResult cfg

/-- `AdvancedIntroDetector.detect_intro`: run the three extractor families
(each failure degrading to "no candidate") and fuse the candidate list. -/
def detect_intro (cfg : Config) (env : Env) : IntroDetectionResult :=
  combine cfg (candidates cfg env)

end AdvancedIntroDetector

namespace SmartIntroDetector

/-- Diagnostic payload of `SmartDetectionResult.details` in
smart_intro_detector.py: one constructor per dict shape the file builds. -/
inductive Details where
  | scenePattern (highDensityWindow lowDensityWindow : ℤ) (sceneCount : ℕ)
  | sceneGap (gapDuration : ℚ)
  | blackScreen (blackScreenAt : ℚ)
  | textDensity (textFrames : ℕ)
  | audioSilence (silenceEnd : ℚ)
  | weightedAverage (methods : List (String × ℚ × ℚ)) (weightedTime : ℚ)
  | defaultFallback
deriving DecidableEq

/-- The dataclass `SmartDetectionResult` of smart_intro_detector.py. -/
structure SmartDetectionResult where
  intro_end_seconds : ℚ
  outro_start_seconds : Option ℚ
  confidence : ℚ
  method : String
  details : Details
deriving DecidableEq

/-- `self.min_intro` set by `SmartIntroDetector.__init__`. -/
def min_intro : ℚ := 10

/-- `self.max_intro` set by `SmartIntroDetector.__init__`. -/
def max_intro : ℚ := 180

/-- Raw measurements and tool outcomes one `SmartIntroDetector.detect` call
consumes; `scenedetectInstalled` reflects the `which scenedetect` probe
(when scenedetect is installed the call into the missing method
`_analyze_scene_patterns` raises `AttributeError`, which is caught, so that
path never yields a candidate), the remaining flags say whether the
corresponding external invocation raised. -/
structure Env where
  whichOk : Bool
  scenedetectInstalled : Bool
  sceneOk : Bool
  sceneTimes : List ℚ
  visualOk : Bool
  blackFrames : List ℚ
  textFrames : List ℚ
  audioOk : Bool
  silenceEnds : List ℚ

/-- Occurrences of window key `w` among timestamps (the per-key count of the
`windows` dict of `_analyze_scene_change_pattern`). -/
def density (ts : List ℚ) (w : ℤ) : ℕ :=
  ts.countP fun t => decide (sceneWindow t = w)

/-- Ascending list of distinct window keys (`sorted(windows.keys())`). -/
def sortedWindows (ts : List ℚ) : List ℤ :=
  ((ts.map sceneWindow).dedup).mergeSort fun a b => decide (a ≤ b)

/-- Consecutive pairs of the sorted window keys. -/
def windowPairs (ts : List ℚ) : List (ℤ × ℤ) :=
  (sortedWindows ts).zip (sortedWindows ts).tail

/-- Lines 166-188 of `_analyze_scene_change_pattern`: at the first window
pair whose density drops from at least 3 to at most 1, return the first
timestamp after `current + 10` that also lies within `[min_intro, max_intro]`
(continuing with the next pair when there is none). -/
def smartDensityScan (ts : List ℚ) : List (ℤ × ℤ) → Option SmartDetectionResult
  | [] => none
  | (cur, nxt) :: rest =>
    if 3 ≤ density ts cur ∧ density ts nxt ≤ 1 then
      match ts.find?
          (fun t => decide ((cur : ℚ) + 10 < t) && decide (min_intro ≤ t) &&
            decide (t ≤ max_intro)) with
      | some t =>
        some ⟨t, none, 3/4, "scene_pattern", .scenePattern cur nxt ts.length⟩
      | none => smartDensityScan ts rest
    else smartDensityScan ts rest

/-- The list comprehension
`[(scene_times[i+1] - scene_times[i], scene_times[i+1]) for i in ...]`. -/
def gapsOf : List ℚ → List (ℚ × ℚ)
  | [] => []
  | [_] => []
  | a :: b :: rest => (b - a, b) :: gapsOf (b :: rest)

/-- Lexicographic order on the `(gap, later-timestamp)` tuples, as Python
compares tuples in `gaps.sort(reverse=True)`. -/
def tupleLeB (a b : ℚ × ℚ) : Bool :=
  decide (a.1 < b.1) || (decide (a.1 = b.1) && decide (a.2 ≤ b.2))

/-- Lines 190-206 of `_analyze_scene_change_pattern` (the gap fallback): sort
all gaps descending (Python tuple order: by gap length, ties by the later
timestamp) and emit the largest one if it exceeds 15 seconds and its later
timestamp lies within `[min_intro, max_intro]`. -/
def gapFallback (ts : List ℚ) : Option SmartDetectionResult :=
  if 2 ≤ ts.length then
    let sortedGaps := (gapsOf ts).mergeSort fun a b => tupleLeB b a
    match sortedGaps with
    | g :: _ =>
      if 15 < g.1 then
        if min_intro ≤ g.2 ∧ g.2 ≤ max_intro then
          some ⟨g.2, none, 13/20, "scene_gap", .sceneGap g.1⟩
        else none
      else none
    | [] => none
  else none

/-- `_analyze_scene_change_pattern`: nothing with fewer than 3 timestamps,
else the density-drop scan, else the gap fallback. -/
def analyze_scene_change_pattern (ts : List ℚ) : Option SmartDetectionResult :=
  if ts.length < 3 then none
  else
    match smartDensityScan ts (windowPairs ts) with
    | some r => some r
    | none => gapFallback ts

/-- `_detect_by_ffmpeg_scene`: no candidate when the ffmpeg call raised or no
scene-change timestamp was parsed; else analyze the pattern. -/
def detect_by_ffmpeg_scene (env : Env) : Option SmartDetectionResult :=
  if env.sceneOk then
    if 0 < env.sceneTimes.length then analyze_scene_change_pattern env.sceneTimes else none
  else none

/-- `_detect_by_scene_change`: when the `which scenedetect` probe raised, no
candidate; when scenedetect is installed, the call of the missing
`_analyze_scene_patterns` method raises and is caught (no candidate); else
fall back to the ffmpeg scene detection. -/
def detect_by_scene_change (env : Env) : Option SmartDetectionResult :=
  if env.whichOk then
    if env.scenedetectInstalled then none else detect_by_ffmpeg_scene env
  else none

/-- Window index `int(time // window)` of `_calculate_density` with the
default `window = 10` (an index, not multiplied back by 10). -/
def textWindow (t : ℚ) : ℤ := ⌊t / 10⌋

/-- Per-index count of the `_calculate_density` dict. -/
def textDensity (ts : List ℚ) (w : ℤ) : ℕ :=
  ts.countP fun t => decide (textWindow t = w)

/-- Ascending list of distinct window indices of the text-frame density. -/
def sortedTextWindows (ts : List ℚ) : List ℤ :=
  ((ts.map textWindow).dedup).mergeSort fun a b => decide (a ≤ b)

/-- `_find_density_drop` (drop_ratio 0.5): at the first consecutive index
pair with count at least 3 followed by a ratio below one half, return the
start of the next window, `(windows[i] + 1) * 10`. -/
def densityDropScan (ts : List ℚ) : List (ℤ × ℤ) → Option ℚ
  | [] => none
  | (cur, nxt) :: rest =>
    if 3 ≤ textDensity ts cur ∧
        (textDensity ts nxt : ℚ) / (textDensity ts cur : ℚ) < 1/2 then
      some (((cur + 1 : ℤ) : ℚ) * 10)
    else densityDropScan ts rest

/-- `_find_density_drop` applied to the sorted distinct window indices. -/
def find_density_drop (ts : List ℚ) : Option ℚ :=
  densityDropScan ts ((sortedTextWindows ts).zip (sortedTextWindows ts).tail)

/-- Lines 248-273 of `_detect_by_visual_features` after the sampling loop:
the last sampled black frame within `[min_intro, max_intro]` (scanning the
black-frame times backwards) wins with confidence 0.8 and end one second
later; otherwise a text-density drop point within range wins with confidence
0.7.  (Python also tests `if drop_point:`, which only rejects a drop point of
exactly 0; such a point fails `min_intro <= drop_point` as well, so the
truthiness test is subsumed by the range check.) -/
def visualAnalysis (env : Env) : Option SmartDetectionResult :=
  match env.blackFrames.reverse.find?
      (fun t => decide (min_intro ≤ t) && decide (t ≤ max_intro)) with
  | some bf => some ⟨bf + 1, none, 4/5, "black_screen", .blackScreen bf⟩
  | none =>
    if env.textFrames.isEmpty then none
    else
      match find_density_drop env.textFrames with
      | some dp =>
        if min_intro ≤ dp ∧ dp ≤ max_intro then
          some ⟨dp, none, 7/10, "text_density", .textDensity env.textFrames.length⟩
        else none
      | none => none

/-- `_detect_by_visual_features`: no candidate when OpenCV raised, else the
frame analysis above on the sampled black-frame and text-frame times. -/
def detect_by_visual_features (env : Env) : Option SmartDetectionResult :=
  if env.visualOk then visualAnalysis env else none

/-- Lines 311-363 of `_detect_by_audio_features`: the parsed `silence_end`
values are scanned in order and the last one within `[min_intro, max_intro]`
is kept (`silence_end` is overwritten on every in-range line); a kept value
is at least 10, so Python's `if silence_end:` truthiness test equals the
`Option` test here. -/
def detect_by_audio_features (env : Env) : Option SmartDetectionResult :=
  if env.audioOk then
    match env.silenceEnds.foldl
        (fun acc t =>
          if min_intro ≤ t ∧ t ≤ max_intro then some t else acc)
        none with
    | some t => some ⟨t, none, 4/5, "audio_silence", .audioSilence t⟩
    | none => none
  else none

/-- The `results` list accumulated by `detect`: scene, then visual, then
audio, each contributing at most one candidate. -/
def candidates (env : Env) : List SmartDetectionResult :=
  (detect_by_scene_change env).toList ++ (detect_by_visual_features env).toList ++
    (detect_by_audio_features env).toList

/-- The fixed fallback result of `detect` (lines 74-81): 60 seconds
hardcoded, confidence 0.3, method `default`. -/
def defaultResult : SmartDetectionResult :=
  ⟨60, none, 3/10, "default", .defaultFallback⟩

/-- Stable descending sort by confidence
(`results.sort(key=lambda x: x.confidence, reverse=True)`). -/
def sortByConfDesc (rs : List SmartDetectionResult) : List SmartDetectionResult :=
  rs.mergeSort fun a b => decide (b.confidence ≤ a.confidence)

/-- The confidence-weighted mean of the end times
(`sum(r.intro_end_seconds * r.confidence) / sum(r.confidence)`). -/
def weightedMean (rs : List SmartDetectionResult) : ℚ :=
  (rs.map fun r => r.intro_end_seconds * r.confidence).sum /
    (rs.map SmartDetectionResult.confidence).sum

/-- `min(results, key=lambda r: abs(r.intro_end_seconds - weighted_time))`:
the first element of minimal distance (Python `min` keeps the earliest
minimum). -/
def closestTo (wt : ℚ) (first : SmartDetectionResult) (rest : List SmartDetectionResult) :
    SmartDetectionResult :=
  rest.foldl
    (fun a r =>
      if |r.intro_end_seconds - wt| < |a.intro_end_seconds - wt| then r else a)
    first

/-- `_combine_results`: a singleton is returned as is; else sort by
confidence descending (in place, so every later read uses the sorted list),
return the top candidate when its confidence reaches 0.8, and otherwise build
the `weighted_average` candidate from the confidence-weighted mean, the
outro time of the candidate closest to that mean, confidence
`min(0.9, total_weight / len(results))` and the audit trail of
`(method, end, confidence)` tuples.  (The empty case cannot occur: `detect`
only calls this with a non-empty list; Python would raise `IndexError`.) -/
def combine_results (results : List SmartDetectionResult) : SmartDetectionResult :=
  match results with
  | [r] => r
  | _ =>
    match sortByConfDesc results with
    | [] => defaultResult
    | top :: rest =>
      if 4/5 ≤ top.confidence then top
      else
        let sorted := top :: rest
        let total_weight := (sorted.map SmartDetectionResult.confidence).sum
        let weighted_time := (sorted.map fun r => r.intro_end_seconds * r.confidence).sum /
          total_weight
        ⟨((pyRound weighted_time : ℤ) : ℚ),
          (closestTo weighted_time top rest).outro_start_seconds,
          min (9/10) (total_weight / (sorted.length : ℚ)),
          "weighted_average",
          .weightedAverage (sorted.map fun r => (r.method, r.intro_end_seconds, r.confidence))
            weighted_time⟩

/-- `SmartIntroDetector.detect`: run the three extractor families (each
failure degrading to "no candidate"), fuse a non-empty candidate list, and
fall back to the fixed default otherwise. -/
def detect (env : Env) : SmartDetectionResult :=
  let results := candidates env
  if results.isEmpty then defaultResult else combine_results results

end SmartIntroDetector

/-- The scene-gap rule in the words of the specification, written for the
refinement comparison with the two implementations: scan consecutive
scene-change timestamps in time order and take the first gap strictly greater
than 15 seconds whose later timestamp is at least `minDur`; the result is
that later timestamp. -/
def specFirstLongGap (minDur : ℚ) : ℚ → List ℚ → Option ℚ
  | _, [] => none
  | prev, t :: rest =>
    if minDur ≤ t ∧ 15 < t - prev then some t else specFirstLongGap minDur t rest

/-- The unweighted mean of the candidate end times computed by the advanced
fusion (`sum(r.intro_end_seconds for r in detection_results) / len(...)`). -/
def AdvancedIntroDetector.plainMean (rs : List AdvancedIntroDetector.IntroDetectionResult) : ℚ :=
  ((rs.map AdvancedIntroDetector.IntroDetectionResult.intro_end_seconds).sum : ℤ) /
    (rs.length : ℚ)

/-- The default constructor arguments of `AdvancedIntroDetector.__init__`:
min 30, max 150, default 80, threshold 0.6. -/
def AdvancedIntroDetector.defaultConfig : AdvancedIntroDetector.Config :=
  ⟨30, 150, 80, 3/5⟩

/-- An environment in which every smart extractor fails (all tool invocations
raise), so zero candidates are produced. -/
def SmartIntroDetector.envAllFail : SmartIntroDetector.Env :=
  ⟨false, false, false, [], false, [], [], false, []⟩

/-- An environment in which only the smart audio extractor succeeds, with one
parsed silence end at 42 seconds. -/
def SmartIntroDetector.envAudio42 : SmartIntroDetector.Env :=
  ⟨false, false, false, [], false, [], [], true, [42]⟩

/-- An advanced environment in which only the audio extractor runs and ffmpeg
reports one silence period from 37 to 42 seconds. -/
def AdvancedIntroDetector.envSilence42 : AdvancedIntroDetector.Env :=
  ⟨true, [(37, 42)], false, [], [], false, false, []⟩

/-- An advanced environment in which every extractor fails. -/
def AdvancedIntroDetector.envAllFail : AdvancedIntroDetector.Env :=
  ⟨false, [], false, [], [], false, false, []⟩

/-- A below-threshold candidate with end 90 and confidence 0.5. -/
def AdvancedIntroDetector.cexHigh : AdvancedIntroDetector.IntroDetectionResult :=
  ⟨90, 1/2, "black_screen", .blackScreen 90⟩

/-- A below-threshold candidate with end 30 and confidence 0.3. -/
def AdvancedIntroDetector.cexLow : AdvancedIntroDetector.IntroDetectionResult :=
  ⟨30, 3/10, "scene_gap", .sceneGap 7 30 16⟩

/-- A syntactically well-formed SRT block whose caption starts and ends at
time zero. -/
def IntroDetector.zeroBlock : IntroDetector.SrtBlock :=
  ⟨"1", ⟨0, 0, 0, 0⟩, ⟨0, 0, 0, 0⟩, ["Hello"]⟩

/-- A well-formed SRT block spanning seconds 1 to 2. -/
def IntroDetector.secondBlock : IntroDetector.SrtBlock :=
  ⟨"1", ⟨0, 0, 1, 0⟩, ⟨0, 0, 2, 0⟩, ["Hi"]⟩

/-! ### Helper lemmas -/

theorem pyInt_nonneg {q : ℚ} (h : 0 ≤ q) : 0 ≤ pyInt q := by
  unfold pyInt
  rw [if_neg (not_lt.mpr h)]
  exact Int.floor_nonneg.mpr h

theorem pyRound_nonneg {q : ℚ} (h : 0 ≤ q) : 0 ≤ pyRound q := by
  have h0 : 0 ≤ ⌊q⌋ := Int.floor_nonneg.mpr h
  unfold pyRound
  split_ifs <;> omega

theorem pyInt_intCast (z : ℤ) : pyInt (z : ℚ) = z := by
  unfold pyInt
  split_ifs with h
  · rw [Int.ceil_intCast]
  · rw [Int.floor_intCast]

theorem mergeSort_head_le {α : Type*} (le : α → α → Bool)
    (htrans : ∀ a b c, le a b = true → le b c = true → le a c = true)
    (htotal : ∀ a b, (le a b || le b a) = true)
    {l : List α} {top : α} {rest : List α}
    (h : l.mergeSort le = top :: rest) :
    top ∈ l ∧ ∀ r ∈ l, le top r = true := by
  have hperm : (top :: rest).Perm l := by
    rw [← h]; exact List.mergeSort_perm l le
  have hsorted := List.sorted_mergeSort htrans htotal l
  rw [h] at hsorted
  refine ⟨hperm.mem_iff.mp (List.mem_cons_self _ _), ?_⟩
  intro r hr
  rcases List.mem_cons.mp (hperm.mem_iff.mpr hr) with rfl | hr'
  · rcases Bool.or_eq_true_iff.mp (htotal r r) with h1 | h1 <;> exact h1
  · exact List.rel_of_pairwise_cons hsorted hr'

theorem mergeSort_desc_head {α : Type*} (f : α → ℚ) {l : List α} {top : α} {rest : List α}
    (h : l.mergeSort (fun a b => decide (f b ≤ f a)) = top :: rest) :
    top ∈ l ∧ ∀ r ∈ l, f r ≤ f top := by
  have key := mergeSort_head_le (fun a b => decide (f b ≤ f a))
    (fun a b c hab hbc =>
      decide_eq_true (le_trans (of_decide_eq_true hbc) (of_decide_eq_true hab)))
    (fun a b => by
      rcases le_total (f b) (f a) with h1 | h1
      · exact Bool.or_eq_true_iff.mpr (Or.inl (decide_eq_true h1))
      · exact Bool.or_eq_true_iff.mpr (Or.inr (decide_eq_true h1))) h
  exact ⟨key.1, fun r hr => of_decide_eq_true (key.2 r hr)⟩

namespace IntroDetector

theorem pymod_eq_fract_mul (a : ℚ) {b : ℚ} (hb : b ≠ 0) :
    pymod a b = b * Int.fract (a / b) := by
  have hba : b * (a / b) = a := by field_simp
  rw [pymod, Int.fract, mul_sub, hba]

theorem pymod_nonneg (a : ℚ) {b : ℚ} (hb : 0 < b) : 0 ≤ pymod a b := by
  rw [pymod_eq_fract_mul a hb.ne']
  exact mul_nonneg hb.le (Int.fract_nonneg _)

theorem pymod_lt (a : ℚ) {b : ℚ} (hb : 0 < b) : pymod a b < b := by
  rw [pymod_eq_fract_mul a hb.ne']
  calc b * Int.fract (a / b) < b * 1 := (mul_lt_mul_left hb).mpr (Int.fract_lt_one _)
    _ = b := mul_one b

theorem pymod_add_floor (a b : ℚ) : b * ⌊a / b⌋ + pymod a b = a := by
  rw [pymod]; ring

theorem pymod_sub_int_mul (a : ℚ) {b : ℚ} (z : ℤ) (hb : b ≠ 0) :
    pymod (a - b * z) b = pymod a b := by
  have hdiv : (a - b * z) / b = a / b - z := by field_simp
  rw [pymod, pymod, hdiv, Int.floor_sub_int]
  push_cast
  ring

theorem floor_intCast_add_of_lt_one {n : ℤ} {x : ℚ} (hx : 0 ≤ x) (hx1 : x < 1) :
    ⌊(n : ℚ) + x⌋ = n := by
  rw [add_comm, Int.floor_add_int, Int.floor_eq_zero_iff.mpr (Set.mem_Ico.mpr ⟨hx, hx1⟩),
    zero_add]

theorem floor_natCast_add_of_lt_one {n : ℕ} {x : ℚ} (hx : 0 ≤ x) (hx1 : x < 1) :
    ⌊(n : ℚ) + x⌋ = n := by
  have hn : ((n : ℤ) : ℚ) = (n : ℚ) := by push_cast; ring
  rw [← hn, floor_intCast_add_of_lt_one hx hx1]

theorem formatSeconds_tcSeconds {t : Tc} (h : t.Canonical) :
    formatSeconds (tcSeconds t) = t := by
  obtain ⟨hhh, hmm, hss, hms⟩ := h
  have hmmQ : (t.mm : ℚ) ≤ 59 := by exact_mod_cast Nat.le_of_lt_succ hmm
  have hssQ : (t.ss : ℚ) ≤ 59 := by exact_mod_cast Nat.le_of_lt_succ hss
  have hmsQ : (t.ms : ℚ) < 1000 := by exact_mod_cast hms
  have hfrac0 : (0 : ℚ) ≤ (t.ms : ℚ) / 1000 := by positivity
  have hfrac1 : (t.ms : ℚ) / 1000 < 1 := by
    rw [div_lt_one (by norm_num)]; exact hmsQ
  have hv0 : (0 : ℚ) ≤ (t.ss : ℚ) + (t.ms : ℚ) / 1000 := by positivity
  have hv1 : (t.ss : ℚ) + (t.ms : ℚ) / 1000 < 60 := by linarith
  have hu0 : (0 : ℚ) ≤ (t.mm : ℚ) * 60 + ((t.ss : ℚ) + (t.ms : ℚ) / 1000) := by positivity
  have hu1 : (t.mm : ℚ) * 60 + ((t.ss : ℚ) + (t.ms : ℚ) / 1000) < 3600 := by linarith
  have f1 : ⌊tcSeconds t / 3600⌋ = (t.hh : ℤ) := by
    have hq : tcSeconds t / 3600 =
        (t.hh : ℚ) + ((t.mm : ℚ) * 60 + ((t.ss : ℚ) + (t.ms : ℚ) / 1000)) / 3600 := by
      rw [tcSeconds]; ring
    rw [hq, floor_natCast_add_of_lt_one (by positivity)
      (by rw [div_lt_one (by norm_num)]; exact hu1)]
  have f2 : pymod (tcSeconds t) 3600 =
      (t.mm : ℚ) * 60 + ((t.ss : ℚ) + (t.ms : ℚ) / 1000) := by
    rw [pymod, f1, tcSeconds]; push_cast; ring
  have f3 : ⌊pymod (tcSeconds t) 3600 / 60⌋ = (t.mm : ℤ) := by
    have hq : ((t.mm : ℚ) * 60 + ((t.ss : ℚ) + (t.ms : ℚ) / 1000)) / 60 =
        (t.mm : ℚ) + ((t.ss : ℚ) + (t.ms : ℚ) / 1000) / 60 := by ring
    rw [f2, hq, floor_natCast_add_of_lt_one (by positivity)
      (by rw [div_lt_one (by norm_num)]; exact hv1)]
  have f4 : ⌊tcSeconds t / 60⌋ = 60 * (t.hh : ℤ) + (t.mm : ℤ) := by
    have hq : tcSeconds t / 60 =
        ((60 * (t.hh : ℤ) + (t.mm : ℤ) : ℤ) : ℚ) + ((t.ss : ℚ) + (t.ms : ℚ) / 1000) / 60 := by
      rw [tcSeconds]; push_cast; ring
    rw [hq, floor_intCast_add_of_lt_one (by positivity)
      (by rw [div_lt_one (by norm_num)]; exact hv1)]
  have f5 : pymod (tcSeconds t) 60 = (t.ss : ℚ) + (t.ms : ℚ) / 1000 := by
    rw [pymod, f4, tcSeconds]; push_cast; ring
  have f6 : ⌊pymod (tcSeconds t) 60⌋ = (t.ss : ℤ) := by
    rw [f5, floor_natCast_add_of_lt_one hfrac0 hfrac1]
  have f7 : pymod (pymod (tcSeconds t) 60) 1 = (t.ms : ℚ) / 1000 := by
    rw [pymod, div_one, f6, f5]; push_cast; ring
  have f8 : ⌊pymod (pymod (tcSeconds t) 60) 1 * 1000⌋ = (t.ms : ℤ) := by
    have hq : pymod (pymod (tcSeconds t) 60) 1 * 1000 = ((t.ms : ℤ) : ℚ) := by
      rw [f7]; push_cast; field_simp
    rw [hq, Int.floor_intCast]
  show formatSeconds (tcSeconds t) = t
  simp only [formatSeconds]
  rw [f1, f3, f6, f8]
  simp only [Int.toNat_natCast]

theorem tcSeconds_formatSeconds {s : ℚ} (hs : 0 ≤ s) (k : ℤ) (hk : s = (k : ℚ) / 1000) :
    tcSeconds (formatSeconds s) = s := by
  have h3600 : (0 : ℚ) < 3600 := by norm_num
  have h60 : (0 : ℚ) < 60 := by norm_num
  have h1 : (0 : ℚ) < 1 := by norm_num
  have hr1 : pymod s 3600 = s - 3600 * ⌊s / 3600⌋ := by rw [pymod]
  have hr2 : pymod s 60 = s - 60 * ⌊s / 60⌋ := by rw [pymod]
  have hr2' : pymod (pymod s 3600) 60 = pymod s 60 := by
    have : pymod s 3600 = s - 60 * ((60 * ⌊s / 3600⌋ : ℤ) : ℚ) := by
      rw [hr1]; push_cast; ring
    rw [this, pymod_sub_int_mul s _ h60.ne']
  have hfr : pymod (pymod s 60) 1 = pymod s 60 - ⌊pymod s 60⌋ := by
    rw [pymod, div_one, mul_comm, mul_one]
  -- the fractional part times 1000 is an integer
  have hint : pymod (pymod s 60) 1 * 1000 =
      ((k - 60000 * ⌊s / 60⌋ - 1000 * ⌊pymod s 60⌋ : ℤ) : ℚ) := by
    rw [hfr, hr2, hk]; push_cast; ring
  have hms : ⌊pymod (pymod s 60) 1 * 1000⌋ = k - 60000 * ⌊s / 60⌋ - 1000 * ⌊pymod s 60⌋ := by
    rw [hint, Int.floor_intCast]
  -- non-negativity of every stored component
  have hnn1 : 0 ≤ ⌊s / 3600⌋ := Int.floor_nonneg.mpr (by positivity)
  have hnn2 : 0 ≤ ⌊pymod s 3600 / 60⌋ :=
    Int.floor_nonneg.mpr (div_nonneg (pymod_nonneg s h3600) h60.le)
  have hnn3 : 0 ≤ ⌊pymod s 60⌋ := Int.floor_nonneg.mpr (pymod_nonneg s h60)
  have hnn4 : 0 ≤ ⌊pymod (pymod s 60) 1 * 1000⌋ :=
    Int.floor_nonneg.mpr (by
      have := pymod_nonneg (pymod s 60) h1
      positivity)
  have c1 : ((⌊s / 3600⌋.toNat : ℕ) : ℚ) = ((⌊s / 3600⌋ : ℤ) : ℚ) := by
    exact_mod_cast congrArg (fun z : ℤ => (z : ℚ)) (Int.toNat_of_nonneg hnn1)
  have c2 : ((⌊pymod s 3600 / 60⌋.toNat : ℕ) : ℚ) = ((⌊pymod s 3600 / 60⌋ : ℤ) : ℚ) := by
    exact_mod_cast congrArg (fun z : ℤ => (z : ℚ)) (Int.toNat_of_nonneg hnn2)
  have c3 : ((⌊pymod s 60⌋.toNat : ℕ) : ℚ) = ((⌊pymod s 60⌋ : ℤ) : ℚ) := by
    exact_mod_cast congrArg (fun z : ℤ => (z : ℚ)) (Int.toNat_of_nonneg hnn3)
  have c4 : ((⌊pymod (pymod s 60) 1 * 1000⌋.toNat : ℕ) : ℚ) =
      ((⌊pymod (pymod s 60) 1 * 1000⌋ : ℤ) : ℚ) := by
    exact_mod_cast congrArg (fun z : ℤ => (z : ℚ)) (Int.toNat_of_nonneg hnn4)
  have e1 : (3600 : ℚ) * (⌊s / 3600⌋ : ℚ) + pymod s 3600 = s := pymod_add_floor s 3600
  have e2 : (60 : ℚ) * (⌊pymod s 3600 / 60⌋ : ℚ) + pymod (pymod s 3600) 60 =
      pymod s 3600 := pymod_add_floor (pymod s 3600) 60
  have e4 : ((⌊pymod s 60⌋ : ℤ) : ℚ) = pymod s 60 - pymod (pymod s 60) 1 := by
    rw [hfr]; ring
  have e5 : ((⌊pymod (pymod s 60) 1 * 1000⌋ : ℤ) : ℚ) / 1000 = pymod (pymod s 60) 1 := by
    have hD : ((⌊pymod (pymod s 60) 1 * 1000⌋ : ℤ) : ℚ) = pymod (pymod s 60) 1 * 1000 := by
      rw [hms, ← hint]
    rw [hD]
    field_simp
  rw [tcSeconds, formatSeconds]
  simp only
  rw [c1, c2, c3, c4]
  rw [hr2'] at e2
  linarith [e1, e2, e4, e5]

/-- Structural form of the adjustment loop: the output is exactly the
surviving blocks (original end time after the offset), in order, numbered
consecutively from the initial counter, with both timecodes adjusted. -/
theorem adjustBlocks_eq (offset : ℚ) :
    ∀ (bs : List SrtBlock) (n : ℕ),
      adjustBlocks offset bs n =
        (List.enumFrom n (bs.filter fun b => decide (offset < tcSeconds b.endTc))).map
          fun p => ⟨p.1, adjust_time offset p.2.startTc, adjust_time offset p.2.endTc, p.2.text⟩
  | [], _ => rfl
  | b :: bs, n => by
    by_cases h : tcSeconds b.endTc ≤ offset
    · have hd : decide (offset < tcSeconds b.endTc) = false := by
        rw [decide_eq_false_iff_not]; exact not_lt.mpr h
      rw [adjustBlocks, if_pos h, List.filter_cons, hd]
      simpa using adjustBlocks_eq offset bs n
    · have hd : decide (offset < tcSeconds b.endTc) = true := decide_eq_true (not_le.mp h)
      rw [adjustBlocks, if_neg h, List.filter_cons, hd]
      simp only [if_pos, List.enumFrom_cons, List.map_cons]
      rw [adjustBlocks_eq offset bs (n + 1)]

theorem tcSeconds_nonneg (t : Tc) : 0 ≤ tcSeconds t := by
  rw [tcSeconds]; positivity

theorem tcSeconds_thousand (t : Tc) :
    tcSeconds t = ((3600000 * t.hh + 60000 * t.mm + 1000 * t.ss + t.ms : ℤ) : ℚ) / 1000 := by
  rw [tcSeconds]; push_cast; ring

/-- With an offset that is a whole number of milliseconds, the adjusted
timecode represents exactly `max 0 (old - offset)` (no truncation loss). -/
theorem adjust_time_value {offset : ℚ} (k : ℤ) (hk : offset = (k : ℚ) / 1000) (t : Tc) :
    tcSeconds (adjust_time offset t) = max 0 (tcSeconds t - offset) := by
  rw [adjust_time]
  rcases le_total (tcSeconds t - offset) 0 with h | h
  · have hmax : max 0 (tcSeconds t - offset) = 0 := max_eq_left h
    rw [hmax]
    exact tcSeconds_formatSeconds le_rfl 0 (by norm_num)
  · have hmax : max 0 (tcSeconds t - offset) = tcSeconds t - offset := max_eq_right h
    rw [hmax]
    exact tcSeconds_formatSeconds h (3600000 * t.hh + 60000 * t.mm + 1000 * t.ss + t.ms - k)
      (by rw [tcSeconds_thousand, hk]; push_cast; ring)

/-- Adjusting a canonical timecode by offset 0 reproduces it exactly. -/
theorem adjust_time_zero {t : Tc} (h : t.Canonical) : adjust_time 0 t = t := by
  rw [adjust_time, sub_zero, max_eq_right (tcSeconds_nonneg t)]
  exact formatSeconds_tcSeconds h

end IntroDetector

/-! ### Claims C5 and C6: SRT timeline adjustment -/

/-- Claim C5, counterexample: a well-formed caption whose end time is exactly
zero is dropped by `adjust_srt_timeline` at offset 0, so the caption count is
not preserved (1 caption in, 0 captions out). -/
theorem adjust_zero_drops_zero_end_caption :
    IntroDetector.adjust_srt_timeline 0 [IntroDetector.zeroBlock] = [] ∧
      ([IntroDetector.zeroBlock] : List IntroDetector.SrtBlock).length = 1 := by
  constructor
  · have h : IntroDetector.tcSeconds (IntroDetector.zeroBlock).endTc ≤ 0 := by
      rw [IntroDetector.zeroBlock, IntroDetector.tcSeconds]
      norm_num
    rw [IntroDetector.adjust_srt_timeline, IntroDetector.adjustBlocks, if_pos h,
      IntroDetector.adjustBlocks]
  · rfl

/-- Claim C5 (amended): for a well-formed SRT whose captions are canonical
timecodes and all have positive end times, running `adjust_srt_timeline` with
offset 0 is a no-op on timestamps — every output timecode equals the
corresponding input timecode — and caption count, order and text content are
preserved.  (As stated over all well-formed inputs the claim fails: a caption
with end time exactly 0 is dropped at offset 0, see the counterexample.) -/
theorem adjust_zero_noop_on_positive_captions (blocks : List IntroDetector.SrtBlock)
    (h : ∀ b ∈ blocks, b.startTc.Canonical ∧ b.endTc.Canonical ∧
      0 < IntroDetector.tcSeconds b.endTc) :
    (IntroDetector.adjust_srt_timeline 0 blocks).map IntroDetector.AdjustedBlock.content =
      blocks.map IntroDetector.SrtBlock.content := by
  rw [IntroDetector.adjust_srt_timeline, IntroDetector.adjustBlocks_eq]
  have hfilter : (blocks.filter fun b => decide ((0 : ℚ) < IntroDetector.tcSeconds b.endTc)) =
      blocks := by
    apply List.filter_eq_self.mpr
    intro b hb
    exact decide_eq_true (h b hb).2.2
  rw [hfilter, List.map_map]
  have hsnd : ∀ p ∈ List.enumFrom 1 blocks,
      (IntroDetector.AdjustedBlock.content ∘ fun p : ℕ × IntroDetector.SrtBlock =>
        (⟨p.1, IntroDetector.adjust_time 0 p.2.startTc, IntroDetector.adjust_time 0 p.2.endTc,
          p.2.text⟩ : IntroDetector.AdjustedBlock)) p =
        (IntroDetector.SrtBlock.content ∘ Prod.snd) p := by
    intro p hp
    have hmem : p.2 ∈ blocks := by
      have := List.enumFrom_map_snd 1 blocks
      rw [← this]
      exact List.mem_map_of_mem Prod.snd hp
    obtain ⟨h1, h2, _⟩ := h p.2 hmem
    simp only [Function.comp_apply, IntroDetector.AdjustedBlock.content,
      IntroDetector.SrtBlock.content, IntroDetector.adjust_time_zero h1,
      IntroDetector.adjust_time_zero h2]
  rw [List.map_congr_left hsnd, ← List.map_map, List.enumFrom_map_snd]

/-- Witness for claim C5's amended theorem at a concrete one-caption file. -/
theorem adjust_zero_noop_on_positive_captions_witness :
    (IntroDetector.adjust_srt_timeline 0 [IntroDetector.secondBlock]).map
        IntroDetector.AdjustedBlock.content =
      [IntroDetector.secondBlock].map IntroDetector.SrtBlock.content :=
  adjust_zero_noop_on_positive_captions [IntroDetector.secondBlock] (by
    intro b hb
    rw [List.mem_singleton.mp hb]
    refine ⟨⟨?_, ?_, ?_, ?_⟩, ⟨?_, ?_, ?_, ?_⟩, ?_⟩ <;>
      norm_num [IntroDetector.secondBlock, IntroDetector.tcSeconds])

/-- Claim C6, counterexample: with the offset 1/2000 s (half a millisecond)
the caption starting at 1 s survives, but its new start time as written to
the output is 0.999 s — the formatter truncates to whole milliseconds — while
the claim demands `max(0, 1 - 1/2000) = 1999/2000`. -/
theorem subsecond_offset_truncates :
    IntroDetector.adjust_srt_timeline (1/2000) [IntroDetector.secondBlock] =
        [⟨1, ⟨0, 0, 0, 999⟩, ⟨0, 0, 1, 999⟩, ["Hi"]⟩] ∧
      max 0 (IntroDetector.tcSeconds (IntroDetector.secondBlock).startTc - 1/2000) =
        1999/2000 ∧
      IntroDetector.tcSeconds ⟨0, 0, 0, 999⟩ ≠ (1999 : ℚ)/2000 := by
  refine ⟨?_, ?_, ?_⟩
  · simp only [IntroDetector.adjust_srt_timeline, IntroDetector.adjustBlocks,
      IntroDetector.secondBlock, IntroDetector.adjust_time, IntroDetector.tcSeconds,
      IntroDetector.formatSeconds, pymod]
    norm_num
    rfl
  · norm_num [IntroDetector.secondBlock, IntroDetector.tcSeconds]
  · norm_num [IntroDetector.tcSeconds]

/-- Claim C6 (amended): for every offset, the output of the timeline
adjustment is exactly the list of blocks whose original end time exceeds the
offset, in order, renumbered sequentially from 1, with both timecodes passed
through `adjust_time`; and for every offset that is a whole number of
milliseconds the adjusted start and end times equal `max 0 (old - offset)`
exactly.  (For offsets with sub-millisecond precision the written timecode is
the millisecond truncation of that value, see the counterexample.) -/
theorem timeline_adjustment_characterized (offset : ℚ)
    (blocks : List IntroDetector.SrtBlock) :
    (IntroDetector.adjust_srt_timeline offset blocks =
      (List.enumFrom 1 (blocks.filter fun b =>
          decide (offset < IntroDetector.tcSeconds b.endTc))).map
        fun p => ⟨p.1, IntroDetector.adjust_time offset p.2.startTc,
          IntroDetector.adjust_time offset p.2.endTc, p.2.text⟩) ∧
      ((IntroDetector.adjust_srt_timeline offset blocks).map
          IntroDetector.AdjustedBlock.number =
        List.range' 1 ((blocks.filter fun b =>
          decide (offset < IntroDetector.tcSeconds b.endTc)).length)) ∧
      (∀ k : ℤ, offset = (k : ℚ) / 1000 → ∀ b ∈ blocks,
        IntroDetector.tcSeconds (IntroDetector.adjust_time offset b.startTc) =
            max 0 (IntroDetector.tcSeconds b.startTc - offset) ∧
          IntroDetector.tcSeconds (IntroDetector.adjust_time offset b.endTc) =
            max 0 (IntroDetector.tcSeconds b.endTc - offset)) := by
  refine ⟨IntroDetector.adjustBlocks_eq offset blocks 1, ?_, ?_⟩
  · rw [IntroDetector.adjust_srt_timeline, IntroDetector.adjustBlocks_eq, List.map_map]
    rw [show (IntroDetector.AdjustedBlock.number ∘
        fun p : ℕ × IntroDetector.SrtBlock =>
          (⟨p.1, IntroDetector.adjust_time offset p.2.startTc,
            IntroDetector.adjust_time offset p.2.endTc, p.2.text⟩ :
            IntroDetector.AdjustedBlock)) = Prod.fst from rfl]
    exact List.enumFrom_map_fst 1 _
  · intro k hk b _
    exact ⟨IntroDetector.adjust_time_value k hk b.startTc,
      IntroDetector.adjust_time_value k hk b.endTc⟩

/-- Witness for claim C6's amended theorem at a concrete file and the
whole-second offset 1: the caption from 1 s to 2 s survives as caption 1 with
start exactly 0 and end exactly 1. -/
theorem timeline_adjustment_characterized_witness :
    IntroDetector.tcSeconds
        (IntroDetector.adjust_time 1 (IntroDetector.secondBlock).startTc) =
      max 0 (IntroDetector.tcSeconds (IntroDetector.secondBlock).startTc - 1) ∧
    IntroDetector.tcSeconds
        (IntroDetector.adjust_time 1 (IntroDetector.secondBlock).endTc) =
      max 0 (IntroDetector.tcSeconds (IntroDetector.secondBlock).endTc - 1) :=
  (timeline_adjustment_characterized 1 [IntroDetector.secondBlock]).2.2 1000 (by norm_num)
    IntroDetector.secondBlock (List.mem_singleton.mpr rfl)

/-! ### Advanced detector: extractor lemmas -/

namespace AdvancedIntroDetector

theorem silence_foldl_spec (cfg : Config) :
    ∀ (ps : List (ℚ × ℚ)) (acc : Option Silence) (ls : Silence),
      ps.foldl (silenceStep cfg) acc = some ls →
      (acc = some ls ∨ ∃ p ∈ ps,
          ((cfg.min_intro_duration : ℚ) ≤ p.2 ∧ p.2 ≤ (cfg.max_intro_duration : ℚ)) ∧
            ls = ⟨p.2 - p.1, p.1, p.2⟩) ∧
        (∀ p ∈ ps, (cfg.min_intro_duration : ℚ) ≤ p.2 →
          p.2 ≤ (cfg.max_intro_duration : ℚ) → p.2 - p.1 ≤ ls.duration) ∧
        (∀ a, acc = some a → a.duration ≤ ls.duration)
  | [], acc, ls => fun h => by
    simp only [List.foldl_nil] at h
    refine ⟨Or.inl h, fun p hp => absurd hp (List.not_mem_nil p), fun a ha => ?_⟩
    rw [ha] at h
    cases h
    exact le_rfl
  | p :: ps, acc, ls => fun h => by
    simp only [List.foldl_cons] at h
    obtain ⟨H1, H2, H3⟩ := silence_foldl_spec cfg ps (silenceStep cfg acc p) ls h
    by_cases hr : (cfg.min_intro_duration : ℚ) ≤ p.2 ∧ p.2 ≤ (cfg.max_intro_duration : ℚ)
    · cases acc with
      | none =>
        have hstep : silenceStep cfg none p = some ⟨p.2 - p.1, p.1, p.2⟩ := by
          simp [silenceStep, hr]
        rw [hstep] at H1 H3
        refine ⟨?_, ?_, fun a ha => by cases ha⟩
        · rcases H1 with h1 | h1
          · exact Or.inr ⟨p, List.mem_cons_self p ps, hr, (Option.some.inj h1).symm⟩
          · obtain ⟨q, hq, hqr, hqe⟩ := h1
            exact Or.inr ⟨q, List.mem_cons_of_mem p hq, hqr, hqe⟩
        · intro q hq hq1 hq2
          rcases List.mem_cons.mp hq with rfl | hq'
          · simpa using H3 ⟨q.2 - q.1, q.1, q.2⟩ rfl
          · exact H2 q hq' hq1 hq2
      | some l =>
        by_cases hd : l.duration < p.2 - p.1
        · have hstep : silenceStep cfg (some l) p = some ⟨p.2 - p.1, p.1, p.2⟩ := by
            simp [silenceStep, hr, hd]
          rw [hstep] at H1 H3
          have hpay : p.2 - p.1 ≤ ls.duration := by simpa using H3 ⟨p.2 - p.1, p.1, p.2⟩ rfl
          refine ⟨?_, ?_, fun a ha => ?_⟩
          · rcases H1 with h1 | h1
            · exact Or.inr ⟨p, List.mem_cons_self p ps, hr, (Option.some.inj h1).symm⟩
            · obtain ⟨q, hq, hqr, hqe⟩ := h1
              exact Or.inr ⟨q, List.mem_cons_of_mem p hq, hqr, hqe⟩
          · intro q hq hq1 hq2
            rcases List.mem_cons.mp hq with rfl | hq'
            · exact hpay
            · exact H2 q hq' hq1 hq2
          · rw [← Option.some.inj ha]
            exact le_trans hd.le hpay
        · have hstep : silenceStep cfg (some l) p = some l := by
            simp [silenceStep, hr, hd]
          rw [hstep] at H1 H3
          have hl : l.duration ≤ ls.duration := H3 l rfl
          refine ⟨?_, ?_, fun a ha => ?_⟩
          · rcases H1 with h1 | h1
            · exact Or.inl h1
            · obtain ⟨q, hq, hqr, hqe⟩ := h1
              exact Or.inr ⟨q, List.mem_cons_of_mem p hq, hqr, hqe⟩
          · intro q hq hq1 hq2
            rcases List.mem_cons.mp hq with rfl | hq'
            · exact le_trans (not_lt.mp hd) hl
            · exact H2 q hq' hq1 hq2
          · rw [← Option.some.inj ha]
            exact hl
    · have hstep : silenceStep cfg acc p = acc := by simp [silenceStep, hr]
      rw [hstep] at H1 H3
      refine ⟨?_, ?_, H3⟩
      · rcases H1 with h1 | h1
        · exact Or.inl h1
        · obtain ⟨q, hq, hqr, hqe⟩ := h1
          exact Or.inr ⟨q, List.mem_cons_of_mem p hq, hqr, hqe⟩
      · intro q hq hq1 hq2
        rcases List.mem_cons.mp hq with rfl | hq'
        · exact absurd ⟨hq1, hq2⟩ hr
        · exact H2 q hq' hq1 hq2

theorem selectLongestSilence_spec {cfg : Config} {ps : List (ℚ × ℚ)} {ls : Silence}
    (h : selectLongestSilence cfg ps = some ls) :
    (∃ p ∈ ps, ((cfg.min_intro_duration : ℚ) ≤ p.2 ∧ p.2 ≤ (cfg.max_intro_duration : ℚ)) ∧
        ls = ⟨p.2 - p.1, p.1, p.2⟩) ∧
      ∀ p ∈ ps, (cfg.min_intro_duration : ℚ) ≤ p.2 →
        p.2 ≤ (cfg.max_intro_duration : ℚ) → p.2 - p.1 ≤ ls.duration := by
  obtain ⟨H1, H2, _⟩ := silence_foldl_spec cfg ps none ls h
  rcases H1 with h1 | h1
  · cases h1
  · exact ⟨h1, H2⟩

end AdvancedIntroDetector

namespace AdvancedIntroDetector

theorem densityScan_some {cfg : Config} {sc : List ℚ} :
    ∀ {pairs : List (ℤ × ℤ)} {r : IntroDetectionResult},
      densityScan cfg sc pairs = some r →
      r.confidence = 3/4 ∧ r.detection_method = "scene_density_drop" ∧
        ∃ t : ℚ, (cfg.min_intro_duration : ℚ) + 10 < t ∧ r.intro_end_seconds = pyInt t
  | [], r => fun h => by cases h
  | (cur, nxt) :: rest, r => fun h => by
    rw [densityScan] at h
    split_ifs at h with hc
    · cases hf : sc.find? fun t => decide ((cur : ℚ) + 10 < t) with
      | none =>
        rw [hf] at h
        exact densityScan_some h
      | some t =>
        rw [hf] at h
        have ht : (cur : ℚ) + 10 < t := by simpa using List.find?_some hf
        have hcur : (cfg.min_intro_duration : ℚ) ≤ (cur : ℚ) := by
          exact_mod_cast hc.1.1
        cases h
        exact ⟨rfl, rfl, t, by linarith, rfl⟩
    · exact densityScan_some h

theorem gapScan_some {cfg : Config} {n : ℕ} :
    ∀ {prev : ℚ} {l : List ℚ} {r : IntroDetectionResult},
      gapScan cfg n prev l = some r →
      r.confidence = 13/20 ∧ r.detection_method = "scene_gap" ∧
        ∃ t : ℚ, (cfg.min_intro_duration : ℚ) ≤ t ∧ r.intro_end_seconds = pyInt t
  | _, [], r => fun h => by cases h
  | prev, t :: rest, r => fun h => by
    rw [gapScan] at h
    split_ifs at h with hc
    · cases h
      exact ⟨rfl, rfl, t, hc.1, rfl⟩
    · exact gapScan_some h

theorem sceneGapFallback_some {cfg : Config} {sc : List ℚ} {r : IntroDetectionResult}
    (h : sceneGapFallback cfg sc = some r) :
    r.confidence = 13/20 ∧ r.detection_method = "scene_gap" ∧
      ∃ t : ℚ, (cfg.min_intro_duration : ℚ) ≤ t ∧ r.intro_end_seconds = pyInt t := by
  cases sc with
  | nil => cases h
  | cons t0 rest => exact gapScan_some h

theorem detect_by_video_features_some {cfg : Config} {env : Env} {r : IntroDetectionResult}
    (h : detect_by_video_features cfg env = some r) (hmin : 0 ≤ cfg.min_intro_duration) :
    (0 < r.confidence ∧ r.confidence ≤ 1) ∧ 0 ≤ r.intro_end_seconds := by
  have hminQ : (0 : ℚ) ≤ (cfg.min_intro_duration : ℚ) := by exact_mod_cast hmin
  rw [detect_by_video_features] at h
  by_cases hv : env.videoOk = true
  swap
  · rw [if_neg hv] at h; cases h
  rw [if_pos hv] at h
  cases hb : env.blackEnds.find? fun e => decide ((cfg.min_intro_duration : ℚ) ≤ e) with
  | some e =>
    rw [hb] at h
    dsimp only at h
    have he : (cfg.min_intro_duration : ℚ) ≤ e := by simpa using List.find?_some hb
    cases h
    exact ⟨⟨by norm_num, by norm_num⟩, pyInt_nonneg (le_trans hminQ he)⟩
  | none =>
    rw [hb] at h
    dsimp only at h
    by_cases hlen : 5 < env.sceneChanges.length
    swap
    · rw [if_neg hlen] at h; cases h
    rw [if_pos hlen] at h
    cases hd : densityScan cfg env.sceneChanges (windowPairs env.sceneChanges) with
    | some r' =>
      rw [hd] at h
      dsimp only at h
      cases h
      obtain ⟨hcf, _, t, ht, hend⟩ := densityScan_some hd
      refine ⟨⟨by rw [hcf]; norm_num, by rw [hcf]; norm_num⟩, ?_⟩
      rw [hend]
      exact pyInt_nonneg (by linarith)
    | none =>
      rw [hd] at h
      dsimp only at h
      obtain ⟨hcf, _, t, ht, hend⟩ := sceneGapFallback_some h
      refine ⟨⟨by rw [hcf]; norm_num, by rw [hcf]; norm_num⟩, ?_⟩
      rw [hend]
      exact pyInt_nonneg (by linarith)

theorem detect_by_audio_features_some {cfg : Config} {env : Env} {r : IntroDetectionResult}
    (h : detect_by_audio_features cfg env = some r) (hmin : 0 ≤ cfg.min_intro_duration)
    (hmax : 0 ≤ cfg.max_intro_duration) :
    (0 < r.confidence ∧ r.confidence ≤ 1) ∧ 0 ≤ r.intro_end_seconds := by
  have hminQ : (0 : ℚ) ≤ (cfg.min_intro_duration : ℚ) := by exact_mod_cast hmin
  rw [detect_by_audio_features] at h
  by_cases ha : env.audioOk = true
  swap
  · rw [if_neg ha] at h; cases h
  rw [if_pos ha] at h
  have hmusic : ∀ r' : IntroDetectionResult, detect_music_to_speech_transition cfg = some r' →
      (0 < r'.confidence ∧ r'.confidence ≤ 1) ∧ 0 ≤ r'.intro_end_seconds := by
    intro r' h'
    rw [detect_music_to_speech_transition] at h'
    cases h'
    exact ⟨⟨by norm_num, by norm_num⟩, le_min (by norm_num) hmax⟩
  cases hl : selectLongestSilence cfg env.silencePeriods with
  | none =>
    rw [hl] at h
    exact hmusic r h
  | some ls =>
    rw [hl] at h
    dsimp only at h
    split_ifs at h
    · obtain ⟨⟨p, _, hpr, hpe⟩, _⟩ := selectLongestSilence_spec hl
      cases h
      refine ⟨⟨by norm_num, by norm_num⟩, ?_⟩
      have hstop : ls.stop = p.2 := by rw [hpe]
      exact pyInt_nonneg (by rw [hstop]; linarith [hpr.1])
    · exact hmusic r h

theorem detect_by_subtitle_features_some {cfg : Config} {env : Env} {r : IntroDetectionResult}
    (h : detect_by_subtitle_features cfg env = some r) (hmin : 0 ≤ cfg.min_intro_duration) :
    (0 < r.confidence ∧ r.confidence ≤ 1) ∧ 0 ≤ r.intro_end_seconds := by
  have hminQ : (0 : ℚ) ≤ (cfg.min_intro_duration : ℚ) := by exact_mod_cast hmin
  rw [detect_by_subtitle_features] at h
  split_ifs at h
  rw [subtitleAnalysis] at h
  cases hf : (sortedSubtitles env.subtitles).find? (fun s =>
      decide (20 < s.text.length) && containsAny s.text punctuationMarks &&
        !containsAny s.text lyricMarkers &&
        decide ((cfg.min_intro_duration : ℚ) ≤ s.start)) with
  | none => rw [hf] at h; cases h
  | some s =>
    rw [hf] at h
    have hpred := List.find?_some hf
    have hstart : (cfg.min_intro_duration : ℚ) ≤ s.start := by
      have := (Bool.and_eq_true _ _).mp hpred
      exact of_decide_eq_true this.2
    cases h
    constructor
    · split_ifs <;> exact ⟨by norm_num, by norm_num⟩
    · exact pyInt_nonneg (le_trans hminQ hstart)

theorem candidates_bounds {cfg : Config} {env : Env} (hmin : 0 ≤ cfg.min_intro_duration)
    (hmax : 0 ≤ cfg.max_intro_duration) :
    ∀ r ∈ candidates cfg env, (0 < r.confidence ∧ r.confidence ≤ 1) ∧
      0 ≤ r.intro_end_seconds := by
  intro r hr
  rw [candidates] at hr
  rcases List.mem_append.mp hr with hr' | hr'
  · rcases List.mem_append.mp hr' with hr'' | hr''
    · exact detect_by_audio_features_some (Option.mem_toList.mp hr'') hmin hmax
    · exact detect_by_video_features_some (Option.mem_toList.mp hr'') hmin
  · exact detect_by_subtitle_features_some (Option.mem_toList.mp hr') hmin

end AdvancedIntroDetector

namespace AdvancedIntroDetector

theorem sortByConfDesc_perm (rs : List IntroDetectionResult) : (sortByConfDesc rs).Perm rs :=
  List.mergeSort_perm rs _

theorem sortByConfDesc_head {rs : List IntroDetectionResult} {best : IntroDetectionResult}
    {rest : List IntroDetectionResult} (hs : sortByConfDesc rs = best :: rest) :
    best ∈ rs ∧ ∀ r ∈ rs, r.confidence ≤ best.confidence :=
  mergeSort_desc_head IntroDetectionResult.confidence hs

theorem combine_top {cfg : Config} {rs : List IntroDetectionResult}
    {best : IntroDetectionResult} {rest : List IntroDetectionResult}
    (hs : sortByConfDesc rs = best :: rest)
    (hth : cfg.confidence_threshold ≤ best.confidence) :
    combine cfg rs = best := by
  simp only [combine, hs]
  rw [if_pos hth]

theorem combine_avg {cfg : Config} {rs : List IntroDetectionResult}
    {best : IntroDetectionResult} {rest : List IntroDetectionResult}
    (hs : sortByConfDesc rs = best :: rest)
    (hth : ¬ cfg.confidence_threshold ≤ best.confidence)
    (h2 : 2 ≤ (best :: rest).length)
    (hrange : (cfg.min_intro_duration : ℚ) ≤ plainMean (best :: rest) ∧
      plainMean (best :: rest) ≤ (cfg.max_intro_duration : ℚ)) :
    combine cfg rs = ⟨pyInt (plainMean (best :: rest)), 3/5, "average",
      .average ((best :: rest).map fun r => (r.detection_method, r.intro_end_seconds))⟩ := by
  simp only [combine, hs]
  rw [if_neg hth, if_pos h2, if_pos]
  · rfl
  · exact hrange

theorem combine_nil (cfg : Config) : combine cfg [] = defaultResult cfg := by
  have hs : sortByConfDesc ([] : List IntroDetectionResult) = [] := by
    simp [sortByConfDesc]
  simp only [combine, hs]

theorem combine_bounds {cfg : Config} {rs : List IntroDetectionResult}
    (hcand : ∀ r ∈ rs, (0 < r.confidence ∧ r.confidence ≤ 1) ∧ 0 ≤ r.intro_end_seconds)
    (hmin : 0 ≤ cfg.min_intro_duration) (hdef : 0 ≤ cfg.default_intro_duration) :
    (0 < (combine cfg rs).confidence ∧ (combine cfg rs).confidence ≤ 1) ∧
      0 ≤ (combine cfg rs).intro_end_seconds := by
  have hminQ : (0 : ℚ) ≤ (cfg.min_intro_duration : ℚ) := by exact_mod_cast hmin
  cases hs : sortByConfDesc rs with
  | nil =>
    simp only [combine, hs]
    exact ⟨⟨by norm_num [defaultResult], by norm_num [defaultResult]⟩, hdef⟩
  | cons best rest =>
    simp only [combine, hs]
    split_ifs with h1 h2 h3
    · exact hcand best (sortByConfDesc_head hs).1
    · refine ⟨⟨by norm_num, by norm_num⟩, ?_⟩
      exact pyInt_nonneg (le_trans hminQ h3.1)
    · exact ⟨⟨by norm_num [defaultResult], by norm_num [defaultResult]⟩, hdef⟩
    · exact ⟨⟨by norm_num [defaultResult], by norm_num [defaultResult]⟩, hdef⟩

theorem detect_intro_bounds (cfg : Config) (env : Env) (hmin : 0 ≤ cfg.min_intro_duration)
    (hmax : 0 ≤ cfg.max_intro_duration) (hdef : 0 ≤ cfg.default_intro_duration) :
    (0 < (detect_intro cfg env).confidence ∧ (detect_intro cfg env).confidence ≤ 1) ∧
      0 ≤ (detect_intro cfg env).intro_end_seconds := by
  rw [detect_intro]
  exact combine_bounds (candidates_bounds hmin hmax) hmin hdef

end AdvancedIntroDetector

/-! ### Smart detector: extractor and fusion lemmas -/

namespace SmartIntroDetector

theorem smartDensityScan_some {ts : List ℚ} :
    ∀ {pairs : List (ℤ × ℤ)} {r : SmartDetectionResult},
      smartDensityScan ts pairs = some r →
      r.confidence = 3/4 ∧ min_intro ≤ r.intro_end_seconds ∧
        r.intro_end_seconds ≤ max_intro ∧ r.method = "scene_pattern"
  | [], r => fun h => by cases h
  | (cur, nxt) :: rest, r => fun h => by
    rw [smartDensityScan] at h
    split_ifs at h with hc
    · cases hf : ts.find? (fun t => decide ((cur : ℚ) + 10 < t) && decide (min_intro ≤ t) &&
          decide (t ≤ max_intro)) with
      | none =>
        rw [hf] at h
        exact smartDensityScan_some h
      | some t =>
        rw [hf] at h
        have hpred := List.find?_some hf
        simp only [Bool.and_eq_true, decide_eq_true_eq] at hpred
        cases h
        exact ⟨rfl, hpred.1.2, hpred.2, rfl⟩
    · exact smartDensityScan_some h

theorem gapFallback_some {ts : List ℚ} {r : SmartDetectionResult}
    (h : gapFallback ts = some r) :
    r.confidence = 13/20 ∧ min_intro ≤ r.intro_end_seconds ∧
      r.intro_end_seconds ≤ max_intro ∧ r.method = "scene_gap" := by
  rw [gapFallback] at h
  split_ifs at h with h2
  cases hg : (gapsOf ts).mergeSort (fun a b => tupleLeB b a) with
  | nil => rw [hg] at h; cases h
  | cons g rest =>
    rw [hg] at h
    dsimp only at h
    split_ifs at h with hgap hrange
    cases h
    exact ⟨rfl, hrange.1, hrange.2, rfl⟩

theorem analyze_some {ts : List ℚ} {r : SmartDetectionResult}
    (h : analyze_scene_change_pattern ts = some r) :
    (r.confidence = 3/4 ∨ r.confidence = 13/20) ∧ min_intro ≤ r.intro_end_seconds := by
  rw [analyze_scene_change_pattern] at h
  split_ifs at h
  cases hd : smartDensityScan ts (windowPairs ts) with
  | some r' =>
    rw [hd] at h
    cases h
    obtain ⟨h1, h2, _, _⟩ := smartDensityScan_some hd
    exact ⟨Or.inl h1, h2⟩
  | none =>
    rw [hd] at h
    dsimp only at h
    obtain ⟨h1, h2, _, _⟩ := gapFallback_some h
    exact ⟨Or.inr h1, h2⟩

theorem scene_candidate_good {env : Env} {r : SmartDetectionResult}
    (h : detect_by_scene_change env = some r) :
    (r.confidence = 13/20 ∨ r.confidence = 7/10 ∨ r.confidence = 3/4 ∨ r.confidence = 4/5) ∧
      min_intro ≤ r.intro_end_seconds := by
  rw [detect_by_scene_change] at h
  split_ifs at h
  rw [detect_by_ffmpeg_scene] at h
  split_ifs at h
  obtain ⟨h1, h2⟩ := analyze_some h
  exact ⟨by tauto, h2⟩

theorem visual_candidate_good {env : Env} {r : SmartDetectionResult}
    (h : detect_by_visual_features env = some r) :
    (r.confidence = 13/20 ∨ r.confidence = 7/10 ∨ r.confidence = 3/4 ∨ r.confidence = 4/5) ∧
      min_intro ≤ r.intro_end_seconds := by
  rw [detect_by_visual_features] at h
  split_ifs at h
  rw [visualAnalysis] at h
  cases hb : env.blackFrames.reverse.find?
      (fun t => decide (min_intro ≤ t) && decide (t ≤ max_intro)) with
  | some bf =>
    rw [hb] at h
    have hpred := List.find?_some hb
    simp only [Bool.and_eq_true, decide_eq_true_eq] at hpred
    cases h
    refine ⟨by tauto, ?_⟩
    show min_intro ≤ bf + 1
    linarith [hpred.1]
  | none =>
    rw [hb] at h
    dsimp only at h
    split_ifs at h
    cases hd : find_density_drop env.textFrames with
    | none => rw [hd] at h; cases h
    | some dp =>
      rw [hd] at h
      dsimp only at h
      split_ifs at h with hrange
      cases h
      exact ⟨by tauto, hrange.1⟩

theorem silenceEnd_foldl {l : List ℚ} :
    ∀ {acc : Option ℚ} {t : ℚ},
      l.foldl (fun acc t => if min_intro ≤ t ∧ t ≤ max_intro then some t else acc) acc =
        some t →
      acc = some t ∨ (min_intro ≤ t ∧ t ≤ max_intro) := by
  induction l with
  | nil => intro acc t h; simp only [List.foldl_nil] at h; exact Or.inl h
  | cons x xs ih =>
    intro acc t h
    simp only [List.foldl_cons] at h
    rcases ih h with h' | h'
    · split_ifs at h' with hx
      · cases h'
        exact Or.inr hx
      · exact Or.inl h'
    · exact Or.inr h'

theorem audio_candidate_good {env : Env} {r : SmartDetectionResult}
    (h : detect_by_audio_features env = some r) :
    (r.confidence = 13/20 ∨ r.confidence = 7/10 ∨ r.confidence = 3/4 ∨ r.confidence = 4/5) ∧
      min_intro ≤ r.intro_end_seconds := by
  rw [detect_by_audio_features] at h
  split_ifs at h
  cases hf : env.silenceEnds.foldl
      (fun acc t => if min_intro ≤ t ∧ t ≤ max_intro then some t else acc) none with
  | none => rw [hf] at h; cases h
  | some t =>
    rw [hf] at h
    cases h
    rcases silenceEnd_foldl hf with h' | h'
    · cases h'
    · exact ⟨by tauto, h'.1⟩

theorem candidates_good (env : Env) :
    ∀ r ∈ candidates env,
      (r.confidence = 13/20 ∨ r.confidence = 7/10 ∨ r.confidence = 3/4 ∨
          r.confidence = 4/5) ∧
        min_intro ≤ r.intro_end_seconds := by
  intro r hr
  rw [candidates] at hr
  rcases List.mem_append.mp hr with hr' | hr'
  · rcases List.mem_append.mp hr' with hr'' | hr''
    · exact scene_candidate_good (Option.mem_toList.mp hr'')
    · exact visual_candidate_good (Option.mem_toList.mp hr'')
  · exact audio_candidate_good (Option.mem_toList.mp hr')

end SmartIntroDetector

namespace SmartIntroDetector

theorem sortDesc_perm (rs : List SmartDetectionResult) : (sortByConfDesc rs).Perm rs :=
  List.mergeSort_perm rs _

theorem sortDesc_head {rs : List SmartDetectionResult} {top : SmartDetectionResult}
    {rest : List SmartDetectionResult} (hs : sortByConfDesc rs = top :: rest) :
    top ∈ rs ∧ ∀ r ∈ rs, r.confidence ≤ top.confidence :=
  mergeSort_desc_head SmartDetectionResult.confidence hs

theorem combine_results_single (r : SmartDetectionResult) : combine_results [r] = r := rfl

theorem combine_results_top {a b : SmartDetectionResult} {tl : List SmartDetectionResult}
    {top : SmartDetectionResult} {rest : List SmartDetectionResult}
    (hs : sortByConfDesc (a :: b :: tl) = top :: rest) (hth : 4/5 ≤ top.confidence) :
    combine_results (a :: b :: tl) = top := by
  simp only [combine_results, hs]
  rw [if_pos hth]

theorem combine_results_weighted_eq {a b : SmartDetectionResult}
    {tl : List SmartDetectionResult} {top : SmartDetectionResult}
    {rest : List SmartDetectionResult}
    (hs : sortByConfDesc (a :: b :: tl) = top :: rest) (hth : ¬ 4/5 ≤ top.confidence) :
    combine_results (a :: b :: tl) =
      ⟨((pyRound (weightedMean (top :: rest)) : ℤ) : ℚ),
        (closestTo (weightedMean (top :: rest)) top rest).outro_start_seconds,
        min (9/10) ((((top :: rest).map SmartDetectionResult.confidence).sum) /
          ((top :: rest).length : ℚ)),
        "weighted_average",
        .weightedAverage ((top :: rest).map fun r => (r.method, r.intro_end_seconds,
          r.confidence)) (weightedMean (top :: rest))⟩ := by
  simp only [combine_results, hs]
  rw [if_neg hth, weightedMean]

theorem weightedMean_perm {l1 l2 : List SmartDetectionResult} (h : l1.Perm l2) :
    weightedMean l1 = weightedMean l2 := by
  rw [weightedMean, weightedMean, (h.map fun r => r.intro_end_seconds * r.confidence).sum_eq,
    (h.map SmartDetectionResult.confidence).sum_eq]

theorem combine_results_bounds {rs : List SmartDetectionResult} (hne : rs ≠ [])
    (hgood : ∀ r ∈ rs,
      (r.confidence = 13/20 ∨ r.confidence = 7/10 ∨ r.confidence = 3/4 ∨
          r.confidence = 4/5) ∧
        min_intro ≤ r.intro_end_seconds) :
    (0 < (combine_results rs).confidence ∧ (combine_results rs).confidence ≤ 1) ∧
      0 ≤ (combine_results rs).intro_end_seconds := by
  have hp : ∀ r ∈ rs, 0 < r.confidence ∧ r.confidence ≤ 1 ∧ 0 ≤ r.intro_end_seconds := by
    intro r hr
    obtain ⟨hc, he⟩ := hgood r hr
    have hm : min_intro = (10 : ℚ) := rfl
    rcases hc with h' | h' | h' | h' <;> rw [h'] <;>
      refine ⟨by norm_num, by norm_num, by rw [hm] at he; linarith⟩
  match rs, hne with
  | [r], _ =>
    rw [combine_results_single]
    obtain ⟨h1, h2, h3⟩ := hp r (List.mem_singleton.mpr rfl)
    exact ⟨⟨h1, h2⟩, h3⟩
  | a :: b :: tl, _ =>
    cases hs : sortByConfDesc (a :: b :: tl) with
    | nil =>
      have := (sortDesc_perm (a :: b :: tl)).length_eq
      rw [hs] at this
      simp at this
    | cons top rest =>
      have hperm : (top :: rest).Perm (a :: b :: tl) := by
        rw [← hs]; exact sortDesc_perm _
      have hmemall : ∀ r ∈ top :: rest, r ∈ a :: b :: tl := fun r hr => hperm.mem_iff.mp hr
      by_cases hth : 4/5 ≤ top.confidence
      · rw [combine_results_top hs hth]
        obtain ⟨h1, h2, h3⟩ := hp top (hmemall top (List.mem_cons_self _ _))
        exact ⟨⟨h1, h2⟩, h3⟩
      · rw [combine_results_weighted_eq hs hth]
        have hS : 0 < ((top :: rest).map SmartDetectionResult.confidence).sum := by
          apply List.sum_pos
          · intro x hx
            obtain ⟨r, hr, hre⟩ := List.mem_map.mp hx
            rw [← hre]
            exact (hp r (hmemall r hr)).1
          · simp
        have hL : (0 : ℚ) < ((top :: rest).length : ℚ) := by
          have : 0 < (top :: rest).length := by simp
          exact_mod_cast this
        have hwm : 0 ≤ weightedMean (top :: rest) := by
          rw [weightedMean]
          apply div_nonneg _ hS.le
          apply List.sum_nonneg
          intro x hx
          obtain ⟨r, hr, hre⟩ := List.mem_map.mp hx
          rw [← hre]
          exact mul_nonneg (hp r (hmemall r hr)).2.2 (hp r (hmemall r hr)).1.le
        refine ⟨⟨lt_min (by norm_num) (div_pos hS hL), ?_⟩, ?_⟩
        · exact le_trans (min_le_left _ _) (by norm_num)
        · show (0 : ℚ) ≤ ((pyRound (weightedMean (top :: rest)) : ℤ) : ℚ)
          exact_mod_cast pyRound_nonneg hwm

theorem detect_bounds (env : Env) :
    (0 < (detect env).confidence ∧ (detect env).confidence ≤ 1) ∧
      0 ≤ (detect env).intro_end_seconds := by
  rw [detect]
  by_cases he : (candidates env).isEmpty
  · simp only [he, if_pos]
    exact ⟨⟨by norm_num [defaultResult], by norm_num [defaultResult]⟩,
      by norm_num [defaultResult]⟩
  · simp only [he, Bool.false_eq_true, if_false]
    have hgood' : ∀ r ∈ candidates env,
        (r.confidence = 13/20 ∨ r.confidence = 7/10 ∨ r.confidence = 3/4 ∨
            r.confidence = 4/5) ∧ min_intro ≤ r.intro_end_seconds := by
      intro r hr
      have := candidates_good env r hr
      have hm : min_intro = (10 : ℚ) := rfl
      exact ⟨this.1, this.2⟩
    exact combine_results_bounds (by simpa [List.isEmpty_iff] using he) hgood'

end SmartIntroDetector

/-! ### Claim C1: totality and result bounds -/

/-- Claim C1: for every configuration with non-negative durations and all
possible extractor outcomes, both top-level detections are total functions of
the environment (all failures degrade to "no candidate"; modelling "never
raises") and always return a result with confidence strictly between 0
(never exactly 0) and 1, and a non-negative end time. -/
theorem detect_total_and_bounded (cfg : AdvancedIntroDetector.Config)
    (envA : AdvancedIntroDetector.Env) (envS : SmartIntroDetector.Env)
    (hmin : 0 ≤ cfg.min_intro_duration) (hmax : 0 ≤ cfg.max_intro_duration)
    (hdef : 0 ≤ cfg.default_intro_duration) :
    (0 < (AdvancedIntroDetector.detect_intro cfg envA).confidence ∧
        (AdvancedIntroDetector.detect_intro cfg envA).confidence ≤ 1 ∧
        0 ≤ (AdvancedIntroDetector.detect_intro cfg envA).intro_end_seconds) ∧
      (0 < (SmartIntroDetector.detect envS).confidence ∧
        (SmartIntroDetector.detect envS).confidence ≤ 1 ∧
        0 ≤ (SmartIntroDetector.detect envS).intro_end_seconds) := by
  obtain ⟨⟨a1, a2⟩, a3⟩ := AdvancedIntroDetector.detect_intro_bounds cfg envA hmin hmax hdef
  obtain ⟨⟨s1, s2⟩, s3⟩ := SmartIntroDetector.detect_bounds envS
  exact ⟨⟨a1, a2, a3⟩, s1, s2, s3⟩

/-- Witness for claim C1 at the default configuration and the all-fail
environments. -/
theorem detect_total_and_bounded_witness :
    (0 < (AdvancedIntroDetector.detect_intro AdvancedIntroDetector.defaultConfig
          AdvancedIntroDetector.envAllFail).confidence ∧
        (AdvancedIntroDetector.detect_intro AdvancedIntroDetector.defaultConfig
          AdvancedIntroDetector.envAllFail).confidence ≤ 1 ∧
        0 ≤ (AdvancedIntroDetector.detect_intro AdvancedIntroDetector.defaultConfig
          AdvancedIntroDetector.envAllFail).intro_end_seconds) ∧
      (0 < (SmartIntroDetector.detect SmartIntroDetector.envAllFail).confidence ∧
        (SmartIntroDetector.detect SmartIntroDetector.envAllFail).confidence ≤ 1 ∧
        0 ≤ (SmartIntroDetector.detect SmartIntroDetector.envAllFail).intro_end_seconds) :=
  detect_total_and_bounded AdvancedIntroDetector.defaultConfig AdvancedIntroDetector.envAllFail
    SmartIntroDetector.envAllFail (by norm_num [AdvancedIntroDetector.defaultConfig])
    (by norm_num [AdvancedIntroDetector.defaultConfig])
    (by norm_num [AdvancedIntroDetector.defaultConfig])

/-! ### Claim C2: the default fallback -/

/-- Claim C2, counterexample: when every smart extractor fails, the smart
detector's fallback has confidence 0.3 and the hardcoded end 60 — not the
fixed confidence 0.5 the claim states for the top-level detectors. -/
theorem smart_default_confidence_cex :
    SmartIntroDetector.candidates SmartIntroDetector.envAllFail = [] ∧
      SmartIntroDetector.detect SmartIntroDetector.envAllFail =
        ⟨60, none, 3/10, "default", .defaultFallback⟩ ∧
      ((3 : ℚ)/10) ≠ 1/2 := by
  have hc : SmartIntroDetector.candidates SmartIntroDetector.envAllFail = [] := by
    simp [SmartIntroDetector.candidates, SmartIntroDetector.detect_by_scene_change,
      SmartIntroDetector.detect_by_visual_features,
      SmartIntroDetector.detect_by_audio_features, SmartIntroDetector.envAllFail]
  refine ⟨hc, ?_, by norm_num⟩
  rw [SmartIntroDetector.detect]
  simp [hc, SmartIntroDetector.defaultResult]

/-- Claim C2 (amended): if every extractor fails or abstains (zero
candidates), the advanced detector returns the configured
default_intro_duration with the fixed confidence 0.5 and method `default`;
the smart variant instead returns the hardcoded 60 seconds with confidence
0.3 and method `default` (it has no configured default duration). -/
theorem default_fallback_results (cfg : AdvancedIntroDetector.Config)
    (envA : AdvancedIntroDetector.Env) (envS : SmartIntroDetector.Env)
    (hA : AdvancedIntroDetector.candidates cfg envA = [])
    (hS : SmartIntroDetector.candidates envS = []) :
    AdvancedIntroDetector.detect_intro cfg envA =
        ⟨cfg.default_intro_duration, 1/2, "default", .defaultFallback⟩ ∧
      SmartIntroDetector.detect envS = ⟨60, none, 3/10, "default", .defaultFallback⟩ := by
  constructor
  · rw [AdvancedIntroDetector.detect_intro, hA, AdvancedIntroDetector.combine_nil]
    rfl
  · rw [SmartIntroDetector.detect]
    simp [hS, SmartIntroDetector.defaultResult]

/-- Witness for claim C2's amended theorem at the all-fail environments. -/
theorem default_fallback_results_witness :
    AdvancedIntroDetector.detect_intro AdvancedIntroDetector.defaultConfig
        AdvancedIntroDetector.envAllFail =
      ⟨AdvancedIntroDetector.defaultConfig.default_intro_duration, 1/2, "default",
        .defaultFallback⟩ ∧
      SmartIntroDetector.detect SmartIntroDetector.envAllFail =
        ⟨60, none, 3/10, "default", .defaultFallback⟩ := by
  have hA : AdvancedIntroDetector.candidates AdvancedIntroDetector.defaultConfig
      AdvancedIntroDetector.envAllFail = [] := by
    simp [AdvancedIntroDetector.candidates, AdvancedIntroDetector.detect_by_audio_features,
      AdvancedIntroDetector.detect_by_video_features,
      AdvancedIntroDetector.detect_by_subtitle_features, AdvancedIntroDetector.envAllFail]
  have hS : SmartIntroDetector.candidates SmartIntroDetector.envAllFail = [] := by
    simp [SmartIntroDetector.candidates, SmartIntroDetector.detect_by_scene_change,
      SmartIntroDetector.detect_by_visual_features,
      SmartIntroDetector.detect_by_audio_features, SmartIntroDetector.envAllFail]
  exact default_fallback_results _ _ _ hA hS

/-! ### Claim C10: smart candidate confidences and division safety -/

/-- Claim C10: every candidate appended inside `SmartIntroDetector.detect`
has confidence 0.65, 0.7, 0.75 or 0.8, hence at least 0.65; therefore when
`_combine_results` runs on a non-empty candidate list, the divisor
`total_weight` (the confidence sum of the sorted list) and the divisor
`len(results)` are both strictly positive — the weighted-average divisions
cannot divide by zero. -/
theorem smart_candidates_confidence_floor (env : SmartIntroDetector.Env) :
    (∀ r ∈ SmartIntroDetector.candidates env,
        r.confidence = 13/20 ∨ r.confidence = 7/10 ∨ r.confidence = 3/4 ∨
          r.confidence = 4/5) ∧
      (∀ r ∈ SmartIntroDetector.candidates env, 13/20 ≤ r.confidence) ∧
      (SmartIntroDetector.candidates env ≠ [] →
        0 < ((SmartIntroDetector.sortByConfDesc (SmartIntroDetector.candidates env)).map
            SmartIntroDetector.SmartDetectionResult.confidence).sum ∧
          0 < ((SmartIntroDetector.sortByConfDesc
            (SmartIntroDetector.candidates env)).length : ℚ)) := by
  have hset := fun r hr => (SmartIntroDetector.candidates_good env r hr).1
  have hfloor : ∀ r ∈ SmartIntroDetector.candidates env, (13 : ℚ)/20 ≤ r.confidence := by
    intro r hr
    rcases hset r hr with h | h | h | h <;> rw [h] <;> norm_num
  refine ⟨hset, hfloor, fun hne => ⟨?_, ?_⟩⟩
  · apply List.sum_pos
    · intro x hx
      obtain ⟨r, hr, hre⟩ := List.mem_map.mp hx
      have hr' : r ∈ SmartIntroDetector.candidates env :=
        (SmartIntroDetector.sortDesc_perm _).mem_iff.mp hr
      rw [← hre]
      exact lt_of_lt_of_le (by norm_num) (hfloor r hr')
    · intro hmap
      apply hne
      have := congrArg List.length hmap
      simp only [List.length_map, List.length_nil] at this
      have hlen := (SmartIntroDetector.sortDesc_perm
        (SmartIntroDetector.candidates env)).length_eq
      rw [this] at hlen
      exact List.length_eq_zero.mp hlen.symm
  · have hlen := (SmartIntroDetector.sortDesc_perm
      (SmartIntroDetector.candidates env)).length_eq
    have : 0 < (SmartIntroDetector.candidates env).length := List.length_pos.mpr hne
    have hpos : 0 < (SmartIntroDetector.sortByConfDesc
        (SmartIntroDetector.candidates env)).length := by omega
    exact_mod_cast hpos

/-- Witness for claim C10 at an environment where only the audio extractor
produces a candidate (one silence end at 42 s). -/
theorem smart_candidates_confidence_floor_witness :
    0 < ((SmartIntroDetector.sortByConfDesc
        (SmartIntroDetector.candidates SmartIntroDetector.envAudio42)).map
        SmartIntroDetector.SmartDetectionResult.confidence).sum ∧
      0 < ((SmartIntroDetector.sortByConfDesc
        (SmartIntroDetector.candidates SmartIntroDetector.envAudio42)).length : ℚ) :=
  (smart_candidates_confidence_floor SmartIntroDetector.envAudio42).2.2 (by
    have : SmartIntroDetector.candidates SmartIntroDetector.envAudio42 =
        [⟨42, none, 4/5, "audio_silence", .audioSilence 42⟩] := by
      simp only [SmartIntroDetector.candidates, SmartIntroDetector.detect_by_scene_change,
        SmartIntroDetector.detect_by_visual_features,
        SmartIntroDetector.detect_by_audio_features, SmartIntroDetector.envAudio42,
        SmartIntroDetector.min_intro, SmartIntroDetector.max_intro]
      norm_num
    rw [this]
    simp)

/-! ### Claim C4: a top candidate at or above threshold wins verbatim -/

/-- Claim C4: in both fusion engines, whenever some candidate of maximal
confidence reaches the acceptance threshold (the configured
confidence_threshold for the advanced detector, 0.8 for the smart one), the
returned result is an element of the candidate list itself — no averaging or
synthesis — and carries that maximal confidence; in particular a single
candidate at or above threshold is returned verbatim. -/
theorem top_candidate_returned_verbatim :
    (∀ (cfg : AdvancedIntroDetector.Config)
        (rs : List AdvancedIntroDetector.IntroDetectionResult)
        (c : AdvancedIntroDetector.IntroDetectionResult), c ∈ rs →
        (∀ r ∈ rs, r.confidence ≤ c.confidence) →
        cfg.confidence_threshold ≤ c.confidence →
        AdvancedIntroDetector.combine cfg rs ∈ rs ∧
          (AdvancedIntroDetector.combine cfg rs).confidence = c.confidence) ∧
      (∀ (cfg : AdvancedIntroDetector.Config)
        (c : AdvancedIntroDetector.IntroDetectionResult),
        cfg.confidence_threshold ≤ c.confidence →
        AdvancedIntroDetector.combine cfg [c] = c) ∧
      (∀ (rs : List SmartIntroDetector.SmartDetectionResult)
        (c : SmartIntroDetector.SmartDetectionResult), c ∈ rs →
        (∀ r ∈ rs, r.confidence ≤ c.confidence) → 4/5 ≤ c.confidence →
        SmartIntroDetector.combine_results rs ∈ rs ∧
          (SmartIntroDetector.combine_results rs).confidence = c.confidence) ∧
      (∀ c : SmartIntroDetector.SmartDetectionResult,
        SmartIntroDetector.combine_results [c] = c) := by
  refine ⟨?_, ?_, ?_, fun c => SmartIntroDetector.combine_results_single c⟩
  · intro cfg rs c hc hmaxc hth
    cases hs : AdvancedIntroDetector.sortByConfDesc rs with
    | nil =>
      have := (AdvancedIntroDetector.sortByConfDesc_perm rs).length_eq
      rw [hs] at this
      rw [List.eq_nil_of_length_eq_zero this.symm] at hc
      cases hc
    | cons best rest =>
      obtain ⟨hbmem, hbmax⟩ := AdvancedIntroDetector.sortByConfDesc_head hs
      have hcb : c.confidence = best.confidence :=
        le_antisymm (hbmax c hc) (hmaxc best hbmem)
      rw [AdvancedIntroDetector.combine_top hs (hcb ▸ hth)]
      exact ⟨hbmem, hcb.symm⟩
  · intro cfg c hth
    have hs : AdvancedIntroDetector.sortByConfDesc [c] = [c] :=
      List.mergeSort_of_sorted (by simp)
    exact AdvancedIntroDetector.combine_top hs hth
  · intro rs c hc hmaxc hth
    match rs, hc with
    | [r], hc =>
      rw [SmartIntroDetector.combine_results_single]
      have : c = r := List.mem_singleton.mp hc
      exact ⟨List.mem_singleton.mpr rfl, by rw [this]⟩
    | a :: b :: tl, hc =>
      cases hs : SmartIntroDetector.sortByConfDesc (a :: b :: tl) with
      | nil =>
        have := (SmartIntroDetector.sortDesc_perm (a :: b :: tl)).length_eq
        rw [hs] at this
        simp at this
      | cons top rest =>
        obtain ⟨hbmem, hbmax⟩ := SmartIntroDetector.sortDesc_head hs
        have hcb : c.confidence = top.confidence :=
          le_antisymm (hbmax c hc) (hmaxc top hbmem)
        rw [SmartIntroDetector.combine_results_top hs (hcb ▸ hth)]
        exact ⟨hbmem, hcb.symm⟩

/-- Witness for claim C4 on concrete singleton candidate lists. -/
theorem top_candidate_returned_verbatim_witness :
    AdvancedIntroDetector.combine AdvancedIntroDetector.defaultConfig
        [⟨42, 4/5, "audio_silence", .silence 5 37 42⟩] =
      (⟨42, 4/5, "audio_silence", .silence 5 37 42⟩ :
        AdvancedIntroDetector.IntroDetectionResult) ∧
      SmartIntroDetector.combine_results [SmartIntroDetector.defaultResult] =
        SmartIntroDetector.defaultResult :=
  ⟨top_candidate_returned_verbatim.2.1 AdvancedIntroDetector.defaultConfig
      ⟨42, 4/5, "audio_silence", .silence 5 37 42⟩
      (by norm_num [AdvancedIntroDetector.defaultConfig]),
    top_candidate_returned_verbatim.2.2.2 SmartIntroDetector.defaultResult⟩

namespace SmartIntroDetector

theorem combine_results_fields {rs : List SmartDetectionResult} (h2 : 2 ≤ rs.length)
    (hlt : ∀ r ∈ rs, r.confidence < 4/5) :
    (combine_results rs).intro_end_seconds = ((pyRound (weightedMean rs) : ℤ) : ℚ) ∧
      (combine_results rs).confidence =
        min (9/10) (((rs.map SmartDetectionResult.confidence).sum) / (rs.length : ℚ)) ∧
      (combine_results rs).method = "weighted_average" ∧
      (combine_results rs).details =
        .weightedAverage ((sortByConfDesc rs).map fun r =>
          (r.method, r.intro_end_seconds, r.confidence)) (weightedMean rs) := by
  match rs, h2 with
  | a :: b :: tl, _ =>
    cases hs : sortByConfDesc (a :: b :: tl) with
    | nil =>
      have := (sortDesc_perm (a :: b :: tl)).length_eq
      rw [hs] at this
      simp at this
    | cons top rest =>
      have hperm : (top :: rest).Perm (a :: b :: tl) := by
        rw [← hs]; exact sortDesc_perm _
      have hth : ¬ 4/5 ≤ top.confidence :=
        not_le.mpr (hlt top (hperm.mem_iff.mp (List.mem_cons_self _ _)))
      rw [combine_results_weighted_eq hs hth]
      have hwm : weightedMean (top :: rest) = weightedMean (a :: b :: tl) :=
        weightedMean_perm hperm
      have hcs : ((top :: rest).map SmartDetectionResult.confidence).sum =
          ((a :: b :: tl).map SmartDetectionResult.confidence).sum :=
        (hperm.map SmartDetectionResult.confidence).sum_eq
      have hln : (top :: rest).length = (a :: b :: tl).length := hperm.length_eq
      refine ⟨by rw [hwm], by rw [hcs, hln], rfl, ?_⟩
      rw [hwm]

theorem plainMean_perm' {l1 l2 : List SmartDetectionResult} (h : l1.Perm l2) :
    ((l1.map SmartDetectionResult.confidence).sum) / (l1.length : ℚ) =
      ((l2.map SmartDetectionResult.confidence).sum) / (l2.length : ℚ) := by
  rw [(h.map SmartDetectionResult.confidence).sum_eq, h.length_eq]

end SmartIntroDetector

/-! ### Claim C7: permutation invariance of the weighted average -/

/-- Claim C7: the confidence-weighted mean is invariant under any permutation
of the candidate list (sum-based weighting is order-independent), and so are
the `intro_end_seconds` and the `confidence` of the averaged result whenever
the weighted-average branch applies (at least two candidates, all below the
0.8 short-circuit). -/
theorem weighted_mean_permutation_invariant
    (l1 l2 : List SmartIntroDetector.SmartDetectionResult) (hperm : l1.Perm l2) :
    SmartIntroDetector.weightedMean l1 = SmartIntroDetector.weightedMean l2 ∧
      (2 ≤ l1.length → (∀ r ∈ l1, r.confidence < 4/5) →
        (SmartIntroDetector.combine_results l1).intro_end_seconds =
            (SmartIntroDetector.combine_results l2).intro_end_seconds ∧
          (SmartIntroDetector.combine_results l1).confidence =
            (SmartIntroDetector.combine_results l2).confidence) := by
  refine ⟨SmartIntroDetector.weightedMean_perm hperm, fun h2 hlt => ?_⟩
  have h2' : 2 ≤ l2.length := by rw [← hperm.length_eq]; exact h2
  have hlt' : ∀ r ∈ l2, r.confidence < 4/5 := fun r hr =>
    hlt r (hperm.mem_iff.mpr hr)
  obtain ⟨e1, c1, _, _⟩ := SmartIntroDetector.combine_results_fields h2 hlt
  obtain ⟨e2, c2, _, _⟩ := SmartIntroDetector.combine_results_fields h2' hlt'
  constructor
  · rw [e1, e2, SmartIntroDetector.weightedMean_perm hperm]
  · rw [c1, c2, SmartIntroDetector.plainMean_perm' hperm]

/-- Witness for claim C7 at a two-element list and its swap. -/
theorem weighted_mean_permutation_invariant_witness :
    (SmartIntroDetector.combine_results
          [⟨30, none, 13/20, "scene_gap", .sceneGap 20⟩,
            ⟨90, none, 7/10, "text_density", .textDensity 5⟩]).intro_end_seconds =
        (SmartIntroDetector.combine_results
          [⟨90, none, 7/10, "text_density", .textDensity 5⟩,
            ⟨30, none, 13/20, "scene_gap", .sceneGap 20⟩]).intro_end_seconds ∧
      (SmartIntroDetector.combine_results
          [⟨30, none, 13/20, "scene_gap", .sceneGap 20⟩,
            ⟨90, none, 7/10, "text_density", .textDensity 5⟩]).confidence =
        (SmartIntroDetector.combine_results
          [⟨90, none, 7/10, "text_density", .textDensity 5⟩,
            ⟨30, none, 13/20, "scene_gap", .sceneGap 20⟩]).confidence :=
  (weighted_mean_permutation_invariant _ _ (List.Perm.swap _ _ [])).2 (by norm_num)
    (by
      intro r hr
      rcases List.mem_cons.mp hr with rfl | hr'
      · norm_num
      · rw [List.mem_singleton.mp hr']
        norm_num)

namespace AdvancedIntroDetector

theorem plainMean_perm {l1 l2 : List IntroDetectionResult} (h : l1.Perm l2) :
    plainMean l1 = plainMean l2 := by
  rw [plainMean, plainMean, (h.map IntroDetectionResult.intro_end_seconds).sum_eq,
    h.length_eq]

end AdvancedIntroDetector

/-! ### Claim C3: below-threshold fusion averages -/

/-- Claim C3 (amended): with at least two candidates, all with positive
confidence strictly below the acceptance threshold, the smart fusion returns
`round(confidence-weighted mean)` (round-half-to-even) with method
`weighted_average` and details retaining the (method, end, confidence)
tuples of the combined candidates in descending-confidence order; the
advanced fusion instead returns the UNWEIGHTED mean of the end times,
truncated toward zero, with method `average` and (method, end) pairs,
provided that unweighted mean lies within `[min, max]`.  (The claim's
"confidence-weighted mean" is false for the advanced variant, see the
counterexample.) -/
theorem low_confidence_fusion_averages :
    (∀ rs : List SmartIntroDetector.SmartDetectionResult, 2 ≤ rs.length →
        (∀ r ∈ rs, 0 < r.confidence ∧ r.confidence < 4/5) →
        (SmartIntroDetector.combine_results rs).intro_end_seconds =
            ((pyRound (SmartIntroDetector.weightedMean rs) : ℤ) : ℚ) ∧
          (SmartIntroDetector.combine_results rs).method = "weighted_average" ∧
          (SmartIntroDetector.combine_results rs).details =
            .weightedAverage ((SmartIntroDetector.sortByConfDesc rs).map fun r =>
              (r.method, r.intro_end_seconds, r.confidence))
              (SmartIntroDetector.weightedMean rs)) ∧
      (∀ (cfg : AdvancedIntroDetector.Config)
        (rs : List AdvancedIntroDetector.IntroDetectionResult), 2 ≤ rs.length →
        (∀ r ∈ rs, 0 < r.confidence ∧ r.confidence < cfg.confidence_threshold) →
        (cfg.min_intro_duration : ℚ) ≤ AdvancedIntroDetector.plainMean rs →
        AdvancedIntroDetector.plainMean rs ≤ (cfg.max_intro_duration : ℚ) →
        AdvancedIntroDetector.combine cfg rs =
          ⟨pyInt (AdvancedIntroDetector.plainMean rs), 3/5, "average",
            .average ((AdvancedIntroDetector.sortByConfDesc rs).map fun r =>
              (r.detection_method, r.intro_end_seconds))⟩) := by
  constructor
  · intro rs h2 hconf
    obtain ⟨e, _, m, d⟩ :=
      SmartIntroDetector.combine_results_fields h2 (fun r hr => (hconf r hr).2)
    exact ⟨e, m, d⟩
  · intro cfg rs h2 hconf hr1 hr2
    cases hs : AdvancedIntroDetector.sortByConfDesc rs with
    | nil =>
      have := (AdvancedIntroDetector.sortByConfDesc_perm rs).length_eq
      rw [hs] at this
      rw [List.eq_nil_of_length_eq_zero this.symm] at h2
      simp at h2
    | cons best rest =>
      have hperm : (best :: rest).Perm rs := by
        rw [← hs]; exact AdvancedIntroDetector.sortByConfDesc_perm rs
      have hth : ¬ cfg.confidence_threshold ≤ best.confidence :=
        not_le.mpr (hconf best (hperm.mem_iff.mp (List.mem_cons_self _ _))).2
      have h2' : 2 ≤ (best :: rest).length := by
        rw [hperm.length_eq]; exact h2
      have hpm : AdvancedIntroDetector.plainMean (best :: rest) =
          AdvancedIntroDetector.plainMean rs := AdvancedIntroDetector.plainMean_perm hperm
      rw [AdvancedIntroDetector.combine_avg hs hth h2'
        ⟨by rw [hpm]; exact hr1, by rw [hpm]; exact hr2⟩, hpm]

/-- Claim C3, counterexample: two advanced candidates with confidences 0.5
and 0.3 (both positive, both below the 0.6 threshold) and end times 90 and
30; their confidence-weighted mean is 67.5 (within [30, 150]), which rounds
to 68, but the advanced fusion returns the unweighted mean 60. -/
theorem advanced_average_unweighted_cex :
    (AdvancedIntroDetector.combine AdvancedIntroDetector.defaultConfig
          [AdvancedIntroDetector.cexHigh, AdvancedIntroDetector.cexLow]).intro_end_seconds =
        60 ∧
      pyRound (((90 : ℚ) * (1/2) + 30 * (3/10)) / ((1/2) + (3/10))) = 68 ∧
      (30 : ℚ) ≤ ((90 : ℚ) * (1/2) + 30 * (3/10)) / ((1/2) + (3/10)) ∧
      ((90 : ℚ) * (1/2) + 30 * (3/10)) / ((1/2) + (3/10)) ≤ 150 ∧
      (60 : ℤ) ≠ 68 := by
  have hs : AdvancedIntroDetector.sortByConfDesc
      [AdvancedIntroDetector.cexHigh, AdvancedIntroDetector.cexLow] =
      [AdvancedIntroDetector.cexHigh, AdvancedIntroDetector.cexLow] := by
    apply List.mergeSort_of_sorted
    norm_num [List.pairwise_cons, AdvancedIntroDetector.cexHigh,
      AdvancedIntroDetector.cexLow]
  have hth : ¬ AdvancedIntroDetector.defaultConfig.confidence_threshold ≤
      (AdvancedIntroDetector.cexHigh).confidence := by
    norm_num [AdvancedIntroDetector.defaultConfig, AdvancedIntroDetector.cexHigh]
  have hpm : AdvancedIntroDetector.plainMean
      [AdvancedIntroDetector.cexHigh, AdvancedIntroDetector.cexLow] = 60 := by
    norm_num [AdvancedIntroDetector.plainMean, AdvancedIntroDetector.cexHigh,
      AdvancedIntroDetector.cexLow]
  have hcomb := AdvancedIntroDetector.combine_avg hs hth (by norm_num)
    ⟨by rw [hpm]; norm_num [AdvancedIntroDetector.defaultConfig],
      by rw [hpm]; norm_num [AdvancedIntroDetector.defaultConfig]⟩
  refine ⟨?_, ?_, by norm_num, by norm_num, by norm_num⟩
  · rw [hcomb, hpm]
    norm_num [pyInt]
  · norm_num [pyRound]

/-- Witness for claim C3's amended theorem at a concrete two-candidate smart
list. -/
theorem low_confidence_fusion_averages_witness :
    (SmartIntroDetector.combine_results
          [⟨30, none, 13/20, "scene_gap", .sceneGap 20⟩,
            ⟨90, none, 7/10, "text_density", .textDensity 5⟩]).intro_end_seconds =
        ((pyRound (SmartIntroDetector.weightedMean
          [⟨30, none, 13/20, "scene_gap", .sceneGap 20⟩,
            ⟨90, none, 7/10, "text_density", .textDensity 5⟩]) : ℤ) : ℚ) ∧
      (SmartIntroDetector.combine_results
          [⟨30, none, 13/20, "scene_gap", .sceneGap 20⟩,
            ⟨90, none, 7/10, "text_density", .textDensity 5⟩]).method =
        "weighted_average" := by
  have h := low_confidence_fusion_averages.1
    [⟨30, none, 13/20, "scene_gap", .sceneGap 20⟩,
      ⟨90, none, 7/10, "text_density", .textDensity 5⟩] (by norm_num)
    (by
      intro r hr
      rcases List.mem_cons.mp hr with rfl | hr'
      · norm_num
      · rw [List.mem_singleton.mp hr']
        norm_num)
  exact ⟨h.1, h.2.1⟩

/-! ### Claim C9: audio-silence selection and the end-to-end scenario -/

/-- Claim C9: in the advanced audio extractor (with the ffmpeg call
succeeding), the selected silence is an in-range parsed interval of maximal
duration; an `audio_silence` candidate is emitted if and only if that
duration exceeds 3 seconds, and then it carries `end = int(interval.end)`,
confidence 0.8 and details `{duration, start, end}`; and in the end-to-end
scenario where only the audio extractor produces evidence — one silence
period from 37 s to 42 s — the final result is end 42, confidence 0.8,
method `audio_silence`. -/
theorem audio_silence_selection (cfg : AdvancedIntroDetector.Config)
    (env : AdvancedIntroDetector.Env) (haudio : env.audioOk = true) :
    (∀ ls : AdvancedIntroDetector.Silence,
        AdvancedIntroDetector.selectLongestSilence cfg env.silencePeriods = some ls →
        (∃ p ∈ env.silencePeriods,
            ((cfg.min_intro_duration : ℚ) ≤ p.2 ∧ p.2 ≤ (cfg.max_intro_duration : ℚ)) ∧
              ls = ⟨p.2 - p.1, p.1, p.2⟩) ∧
          ∀ p ∈ env.silencePeriods, (cfg.min_intro_duration : ℚ) ≤ p.2 →
            p.2 ≤ (cfg.max_intro_duration : ℚ) → p.2 - p.1 ≤ ls.duration) ∧
      (∀ ls : AdvancedIntroDetector.Silence,
        AdvancedIntroDetector.selectLongestSilence cfg env.silencePeriods = some ls →
        3 < ls.duration →
        AdvancedIntroDetector.detect_by_audio_features cfg env =
          some ⟨pyInt ls.stop, 4/5, "audio_silence",
            .silence ls.duration ls.start ls.stop⟩) ∧
      (∀ r : AdvancedIntroDetector.IntroDetectionResult,
        AdvancedIntroDetector.detect_by_audio_features cfg env = some r →
        r.detection_method = "audio_silence" →
        ∃ ls : AdvancedIntroDetector.Silence,
          AdvancedIntroDetector.selectLongestSilence cfg env.silencePeriods = some ls ∧
            3 < ls.duration ∧
            r = ⟨pyInt ls.stop, 4/5, "audio_silence",
              .silence ls.duration ls.start ls.stop⟩) ∧
      AdvancedIntroDetector.detect_intro AdvancedIntroDetector.defaultConfig
          AdvancedIntroDetector.envSilence42 =
        ⟨42, 4/5, "audio_silence", .silence 5 37 42⟩ := by
  refine ⟨?_, ?_, ?_, ?_⟩
  · intro ls hls
    exact AdvancedIntroDetector.selectLongestSilence_spec hls
  · intro ls hls hdur
    rw [AdvancedIntroDetector.detect_by_audio_features, if_pos haudio, hls]
    dsimp only
    rw [if_pos hdur]
  · intro r hr hmethod
    rw [AdvancedIntroDetector.detect_by_audio_features, if_pos haudio] at hr
    have hmusic : ∀ r' : AdvancedIntroDetector.IntroDetectionResult,
        AdvancedIntroDetector.detect_music_to_speech_transition cfg = some r' →
        r'.detection_method = "music_analysis" := by
      intro r' h'
      rw [AdvancedIntroDetector.detect_music_to_speech_transition] at h'
      cases h'
      rfl
    cases hl : AdvancedIntroDetector.selectLongestSilence cfg env.silencePeriods with
    | none =>
      rw [hl] at hr
      exact absurd (hmusic r hr ▸ hmethod) (by decide)
    | some ls =>
      rw [hl] at hr
      dsimp only at hr
      split_ifs at hr with hdur
      · cases hr
        exact ⟨ls, rfl, hdur, rfl⟩
      · exact absurd (hmusic r hr ▸ hmethod) (by decide)
  · have hsel : AdvancedIntroDetector.selectLongestSilence
        AdvancedIntroDetector.defaultConfig [(37, 42)] = some ⟨5, 37, 42⟩ := by
      simp only [AdvancedIntroDetector.selectLongestSilence,
        AdvancedIntroDetector.silenceStep, List.foldl_cons, List.foldl_nil,
        AdvancedIntroDetector.defaultConfig]
      norm_num
    have haud : AdvancedIntroDetector.detect_by_audio_features
        AdvancedIntroDetector.defaultConfig AdvancedIntroDetector.envSilence42 =
        some ⟨42, 4/5, "audio_silence", .silence 5 37 42⟩ := by
      rw [AdvancedIntroDetector.detect_by_audio_features]
      have he : AdvancedIntroDetector.envSilence42.audioOk = true := rfl
      have hp : AdvancedIntroDetector.envSilence42.silencePeriods = [(37, 42)] := rfl
      rw [if_pos he, hp, hsel]
      dsimp only
      rw [if_pos (by norm_num)]
      have : pyInt ((42 : ℚ)) = 42 := by norm_num [pyInt]
      rw [this]
    have hcand : AdvancedIntroDetector.candidates AdvancedIntroDetector.defaultConfig
        AdvancedIntroDetector.envSilence42 =
        [⟨42, 4/5, "audio_silence", .silence 5 37 42⟩] := by
      rw [AdvancedIntroDetector.candidates, haud]
      simp [AdvancedIntroDetector.detect_by_video_features,
        AdvancedIntroDetector.detect_by_subtitle_features, AdvancedIntroDetector.envSilence42]
    rw [AdvancedIntroDetector.detect_intro, hcand]
    have hs : AdvancedIntroDetector.sortByConfDesc
        [⟨42, 4/5, "audio_silence", .silence 5 37 42⟩] =
        [⟨42, 4/5, "audio_silence", .silence 5 37 42⟩] :=
      List.mergeSort_of_sorted (by simp)
    rw [AdvancedIntroDetector.combine_top hs
      (by norm_num [AdvancedIntroDetector.defaultConfig])]

/-- Witness for claim C9: the end-to-end conjunct at the concrete
environment (discharging the `audioOk` hypothesis). -/
theorem audio_silence_selection_witness :
    AdvancedIntroDetector.detect_intro AdvancedIntroDetector.defaultConfig
        AdvancedIntroDetector.envSilence42 =
      ⟨42, 4/5, "audio_silence", .silence 5 37 42⟩ :=
  (audio_silence_selection AdvancedIntroDetector.defaultConfig
    AdvancedIntroDetector.envSilence42 rfl).2.2.2

/-! ### Claim C8: the scene-gap fallback -/

namespace SmartIntroDetector

theorem tupleLeB_trans (a b c : ℚ × ℚ) (hab : tupleLeB a b = true)
    (hbc : tupleLeB b c = true) : tupleLeB a c = true := by
  simp only [tupleLeB, Bool.or_eq_true, Bool.and_eq_true, decide_eq_true_eq] at *
  rcases hab with h1 | ⟨h1, h1'⟩ <;> rcases hbc with h2 | ⟨h2, h2'⟩
  · exact Or.inl (lt_trans h1 h2)
  · exact Or.inl (h2 ▸ h1)
  · exact Or.inl (h1 ▸ h2)
  · exact Or.inr ⟨h1.trans h2, le_trans h1' h2'⟩

theorem tupleLeB_total (a b : ℚ × ℚ) : (tupleLeB a b || tupleLeB b a) = true := by
  simp only [tupleLeB, Bool.or_eq_true, Bool.and_eq_true, decide_eq_true_eq]
  rcases lt_trichotomy a.1 b.1 with h | h | h
  · exact Or.inl (Or.inl h)
  · rcases le_total a.2 b.2 with h2 | h2
    · exact Or.inl (Or.inr ⟨h, h2⟩)
    · exact Or.inr (Or.inr ⟨h.symm, h2⟩)
  · exact Or.inr (Or.inl h)

theorem tupleLeB_antisymm {a b : ℚ × ℚ} (hab : tupleLeB a b = true)
    (hba : tupleLeB b a = true) : a = b := by
  simp only [tupleLeB, Bool.or_eq_true, Bool.and_eq_true, decide_eq_true_eq] at hab hba
  rcases hab with h1 | ⟨h1, h1'⟩ <;> rcases hba with h2 | ⟨h2, h2'⟩
  · exact absurd h2 (by linarith)
  · exact absurd h1 (by rw [h2]; exact lt_irrefl _)
  · exact absurd h2 (by rw [h1]; exact lt_irrefl _)
  · exact Prod.ext h1 (le_antisymm h1' h2')

theorem gapFallback_eq_max (ts : List ℚ) (g : ℚ × ℚ) (h2 : 2 ≤ ts.length)
    (hmem : g ∈ gapsOf ts) (hmax : ∀ x ∈ gapsOf ts, tupleLeB x g = true) :
    gapFallback ts =
      if 15 < g.1 then
        if min_intro ≤ g.2 ∧ g.2 ≤ max_intro then
          some ⟨g.2, none, 13/20, "scene_gap", .sceneGap g.1⟩
        else none
      else none := by
  rw [gapFallback, if_pos h2]
  cases hg : (gapsOf ts).mergeSort (fun a b => tupleLeB b a) with
  | nil =>
    have hperm := List.mergeSort_perm (gapsOf ts) (fun a b => tupleLeB b a)
    rw [hg] at hperm
    rw [hperm.symm.eq_nil] at hmem
    cases hmem
  | cons g0 rest =>
    obtain ⟨hg0mem, hg0max⟩ := mergeSort_head_le (fun a b => tupleLeB b a)
      (fun a b c hab hbc => tupleLeB_trans c b a hbc hab)
      (fun a b => tupleLeB_total b a) hg
    have hgg : g0 = g := tupleLeB_antisymm (hmax g0 hg0mem) (hg0max g hmem)
    subst hgg
    rfl

end SmartIntroDetector

namespace AdvancedIntroDetector

theorem gapScan_eq_spec (cfg : Config) (n : ℕ) :
    ∀ (prev : ℚ) (l : List ℚ),
      (gapScan cfg n prev l).map IntroDetectionResult.intro_end_seconds =
        (specFirstLongGap (cfg.min_intro_duration : ℚ) prev l).map pyInt
  | _, [] => rfl
  | prev, t :: rest => by
    rw [gapScan, specFirstLongGap]
    by_cases hc : (cfg.min_intro_duration : ℚ) ≤ t ∧ 15 < t - prev
    · rw [if_pos hc, if_pos hc]
      rfl
    · rw [if_neg hc, if_neg hc]
      exact gapScan_eq_spec cfg n t rest

end AdvancedIntroDetector

/-- Claim C8 (amended): the advanced scene-gap fallback implements exactly
the claim's rule — scan timestamps in order and emit the first gap greater
than 15 seconds whose later timestamp is at least `min_intro_duration`, as an
`int`-truncated end with confidence 0.65 and method `scene_gap` — while the
smart variant instead takes the LARGEST gap (Python tuple order, ties broken
toward the larger later-timestamp) and emits its later timestamp only when
that gap exceeds 15 seconds and the timestamp lies within
`[min_intro, max_intro]`, also with confidence 0.65 and method `scene_gap`. -/
theorem scene_gap_fallback_rules :
    (∀ (cfg : AdvancedIntroDetector.Config) (n : ℕ) (prev : ℚ) (l : List ℚ),
        ((AdvancedIntroDetector.gapScan cfg n prev l).map
            AdvancedIntroDetector.IntroDetectionResult.intro_end_seconds =
          (specFirstLongGap (cfg.min_intro_duration : ℚ) prev l).map pyInt) ∧
          ∀ r, AdvancedIntroDetector.gapScan cfg n prev l = some r →
            r.confidence = 13/20 ∧ r.detection_method = "scene_gap") ∧
      (∀ (ts : List ℚ) (g : ℚ × ℚ), 2 ≤ ts.length → g ∈ SmartIntroDetector.gapsOf ts →
        (∀ x ∈ SmartIntroDetector.gapsOf ts, SmartIntroDetector.tupleLeB x g = true) →
        SmartIntroDetector.gapFallback ts =
          if 15 < g.1 then
            if SmartIntroDetector.min_intro ≤ g.2 ∧ g.2 ≤ SmartIntroDetector.max_intro then
              some ⟨g.2, none, 13/20, "scene_gap", .sceneGap g.1⟩
            else none
          else none) := by
  refine ⟨fun cfg n prev l => ⟨AdvancedIntroDetector.gapScan_eq_spec cfg n prev l, ?_⟩,
    fun ts g h2 hmem hmax => SmartIntroDetector.gapFallback_eq_max ts g h2 hmem hmax⟩
  intro r hr
  obtain ⟨h1, h2, _⟩ := AdvancedIntroDetector.gapScan_some hr
  exact ⟨h1, h2⟩

/-- Claim C8, counterexample: for the parsed scene timestamps [0, 20, 100]
(at least 3 timestamps, no density drop), the claim's rule — the FIRST gap
greater than 15 s with later timestamp at least min_intro — picks 20 (gap
20 from 0 to 20), but the smart fallback returns 100, the later timestamp of
the LARGEST gap (80, from 20 to 100). -/
theorem smart_gap_largest_not_first_cex :
    SmartIntroDetector.analyze_scene_change_pattern [0, 20, 100] =
        some ⟨100, none, 13/20, "scene_gap", .sceneGap 80⟩ ∧
      specFirstLongGap SmartIntroDetector.min_intro 0 [20, 100] = some 20 ∧
      (100 : ℚ) ≠ 20 := by
  refine ⟨?_, ?_, by norm_num⟩
  · have hwin : SmartIntroDetector.sortedWindows [0, 20, 100] = [0, 20, 100] := by
      have hmap : ([0, 20, 100] : List ℚ).map sceneWindow = [0, 20, 100] := by
        simp [sceneWindow]
        norm_num
      rw [SmartIntroDetector.sortedWindows, hmap]
      rw [show ([0, 20, 100] : List ℤ).dedup = [0, 20, 100] by decide]
      exact List.mergeSort_of_sorted (by decide)
    have hscan : SmartIntroDetector.smartDensityScan [0, 20, 100]
        (SmartIntroDetector.windowPairs [0, 20, 100]) = none := by
      have hp : SmartIntroDetector.windowPairs [0, 20, 100] = [(0, 20), (20, 100)] := by
        rw [SmartIntroDetector.windowPairs, hwin]
        rfl
      rw [hp]
      have hd0 : SmartIntroDetector.density [0, 20, 100] 0 = 1 := by
        simp [SmartIntroDetector.density, sceneWindow, List.countP_cons]
        norm_num
      have hd20 : SmartIntroDetector.density [0, 20, 100] 20 = 1 := by
        simp [SmartIntroDetector.density, sceneWindow, List.countP_cons]
        norm_num
      rw [SmartIntroDetector.smartDensityScan, if_neg (by rw [hd0]; norm_num),
        SmartIntroDetector.smartDensityScan, if_neg (by rw [hd20]; norm_num),
        SmartIntroDetector.smartDensityScan]
    rw [SmartIntroDetector.analyze_scene_change_pattern, if_neg (by norm_num), hscan]
    have hgaps : SmartIntroDetector.gapsOf [0, 20, 100] = [(20, 20), (80, 100)] := by
      simp [SmartIntroDetector.gapsOf]
      norm_num
    have h := SmartIntroDetector.gapFallback_eq_max [0, 20, 100] (80, 100)
      (by norm_num) (by rw [hgaps]; simp)
      (by
        intro x hx
        rw [hgaps] at hx
        rcases List.mem_cons.mp hx with rfl | hx'
        · simp [SmartIntroDetector.tupleLeB]
          norm_num
        · rw [List.mem_singleton.mp hx']
          simp [SmartIntroDetector.tupleLeB])
    rw [h, if_pos (by norm_num), if_pos (by norm_num [SmartIntroDetector.min_intro,
      SmartIntroDetector.max_intro])]
  · rw [specFirstLongGap, if_pos (by norm_num [SmartIntroDetector.min_intro])]

/-- Witness for claim C8's amended theorem: the smart largest-gap rule
applied at the concrete timestamps [0, 20, 100] with the maximal gap
(80, 100). -/
theorem scene_gap_fallback_rules_witness :
    SmartIntroDetector.gapFallback [0, 20, 100] =
      some ⟨100, none, 13/20, "scene_gap", .sceneGap 80⟩ := by
  have hgaps : SmartIntroDetector.gapsOf [0, 20, 100] = [(20, 20), (80, 100)] := by
    simp [SmartIntroDetector.gapsOf]
    norm_num
  have h := scene_gap_fallback_rules.2 [0, 20, 100] (80, 100)
    (by norm_num) (by rw [hgaps]; simp)
    (by
      intro x hx
      rw [hgaps] at hx
      rcases List.mem_cons.mp hx with rfl | hx'
      · simp [SmartIntroDetector.tupleLeB]
        norm_num
      · rw [List.mem_singleton.mp hx']
        simp [SmartIntroDetector.tupleLeB])
  rw [h, if_pos (by norm_num), if_pos (by norm_num [SmartIntroDetector.min_intro,
    SmartIntroDetector.max_intro])]
